/-
  Verification development for the RoofSpy permit-portal scanning engine.

  Shallow embedding of the core of the repository:
    - utils.py           (date parsing, permit-block extraction, LeadRow)
    - scanner.py         (EnerGovScanner._parse_best_roof, the roofing classifier)
    - connectors/energov.py (normalize_address, _ensure_wpb_search_url,
                             EnerGovConnector.search_roof row classification)
    - connectors/__init__.py (get_connector dispatch)
    - app.py             (run_scan row construction, pacing policy, export cleanup)

  Text is modelled as `List Char` (named `Str`).  Python `datetime`s are
  modelled by their proleptic-Gregorian day number (an `Int`, with
  1970-01-01 = 0, computed by `civilToDays`); `FUTURE_CUTOFF` and
  "today" are day-number parameters.  Float arithmetic
  (`days / 365.25`) is modelled exactly over `ℚ`; for the quantities the
  program produces (integer day counts) the rational and IEEE-double
  results agree on every comparison the program makes, because the
  decision boundaries (20 years, one-decimal rounding) are never within
  double rounding error of an attainable value.  Dynamically typed
  result-dict values whose Python type matters (string vs bool vs float)
  are modelled by the `PyVal` sum.  Total functions model the
  "never raises" behaviour of the corresponding Python functions.
-/
import Mathlib

namespace RoofSpy

abbrev Str := List Char

/-! ## Character helpers (ASCII, as used by the source's regexes) -/

/-- Python `\s` whitespace class. -/
def isWsChar (c : Char) : Bool :=
  c = ' ' || c = '\t' || c = '\n' || c = '\r' || c = '\x0b' || c = '\x0c'

/-- Python regex `\w` (ASCII): letters, digits, underscore. -/
def isWordChar (c : Char) : Bool :=
  c.isAlphanum || c = '_'

def isLowerAscii (c : Char) : Bool := 'a' ≤ c && c ≤ 'z'

def isUpperAscii (c : Char) : Bool := 'A' ≤ c && c ≤ 'Z'

/-- ASCII uppercasing, modelling `str.upper()` on the ASCII range. -/
def upChar (c : Char) : Char :=
  if isLowerAscii c then Char.ofNat (c.toNat - 32) else c

/-- ASCII lowercasing, modelling `str.lower()` on the ASCII range. -/
def lowChar (c : Char) : Char :=
  if isUpperAscii c then Char.ofNat (c.toNat + 32) else c

/-! ## List-of-char string helpers -/

/-- Boolean "p begins s". -/
def isPreB : Str → Str → Bool
  | [], _ => true
  | _ :: _, [] => false
  | a :: as, b :: bs => a = b && isPreB as bs

/-- Boolean substring containment, modelling Python's `in` on strings. -/
def hasSubB (p : Str) : Str → Bool
  | [] => isPreB p []
  | s@(_ :: rest) => isPreB p s || hasSubB p rest

/-- `str.lstrip()` over Python whitespace. -/
def pyLStrip (s : Str) : Str := s.dropWhile isWsChar

/-- `str.rstrip()` over Python whitespace. -/
def pyRStrip (s : Str) : Str := (s.reverse.dropWhile isWsChar).reverse

/-- `str.strip()` over Python whitespace. -/
def pyStrip (s : Str) : Str := pyRStrip (pyLStrip s)

/-- Collapse each whitespace run to a single `' '`, modelling
`re.sub(r"\s+", " ", s)`: every whitespace run is replaced by one space. -/
def collapseWs : Str → Str
  | [] => []
  | [c] => if isWsChar c then [' '] else [c]
  | c1 :: c2 :: rest =>
    if isWsChar c1 && isWsChar c2 then collapseWs (c2 :: rest)
    else (if isWsChar c1 then ' ' else c1) :: collapseWs (c2 :: rest)

/-- `page_text.replace("\r\n", "\n")`. -/
def replaceCRLF : Str → Str
  | '\r' :: '\n' :: rest => '\n' :: replaceCRLF rest
  | c :: rest => c :: replaceCRLF rest
  | [] => []

/-- `str.split(sep)` with a one-character separator (keeps empty pieces). -/
def splitOnChar (sep : Char) : Str → List Str
  | [] => [[]]
  | c :: rest =>
    if c = sep then [] :: splitOnChar sep rest
    else
      match splitOnChar sep rest with
      | [] => [[c]]
      | g :: gs => (c :: g) :: gs

/-- Decimal rendering of a natural number (digits of `str(n)`). -/
def natToStr (n : Nat) : Str :=
  if n < 10 then [Nat.digitChar n]
  else natToStr (n / 10) ++ [Nat.digitChar (n % 10)]
  decreasing_by exact Nat.div_lt_self (by omega) (by omega)

/-- Numeric value of a digit string (as read by `int(...)`). -/
def digitsVal (l : Str) : Nat := l.foldl (fun a c => a * 10 + (c.toNat - 48)) 0

/-- Python's `max(iterable, key=...)` semantics: scan left to right,
replacing the current best only on a strictly greater key, so the FIRST
maximal element wins.  `pyMaxBy key b l` is `max` over `b :: l`. -/
def pyMaxBy (key : α → Int) : α → List α → α
  | best, [] => best
  | best, x :: rest => pyMaxBy key (if key best < key x then x else best) rest

/-- Dynamically-typed Python values, as far as the result dicts need:
the claims distinguish native bools and floats from strings. -/
inductive PyVal where
  | str (s : Str)
  | pybool (b : Bool)
  | float (q : ℚ)
deriving DecidableEq

/-! ## Gregorian dates as day numbers

A Python `datetime`/`date` at midnight is represented by its day number
with epoch 1970-01-01 = 0 (the standard civil-from-days formula).  All
date comparisons the source makes are order-isomorphic to day-number
comparisons, and `(a - b).days` is exactly the day-number difference. -/

def isLeapYear (y : Nat) : Bool :=
  (y % 4 = 0 && y % 100 ≠ 0) || y % 400 = 0

def daysInMonth (y m : Nat) : Nat :=
  if m = 2 then (if isLeapYear y then 29 else 28)
  else if m = 4 || m = 6 || m = 9 || m = 11 then 30
  else 31

/-- Day number of the civil date `y-m-d` (valid for `y ≥ 1`), epoch 1970-01-01. -/
def civilToDays (y m d : Nat) : Int :=
  let yp := if m ≤ 2 then y - 1 else y
  let era := yp / 400
  let yoe := yp - era * 400
  let mp := (m + 9) % 12
  let doy := (153 * mp + 2) / 5 + (d - 1)
  let doe := yoe * 365 + yoe / 4 - yoe / 100 + doy
  (era : Int) * 146097 + (doe : Int) - 719468

/-- Day number of `datetime.min` (= year 1, Jan 1). -/
def dtMin : Int := civilToDays 1 1 1

/-- `datetime(y, m, d)` construction: `None` when the constructor would
raise (month/day/year out of range), else the day number. -/
def mkDateDays (y m d : Nat) : Option Int :=
  if 1 ≤ m ∧ m ≤ 12 ∧ 1 ≤ d ∧ d ≤ daysInMonth y m ∧ 1 ≤ y ∧ y ≤ 9999 then
    some (civilToDays y m d)
  else none

/-! ## utils.py — keyword list, date parsing, permit blocks -/

/-- `utils.ROOF_TYPE_KEYWORDS`. -/
def ROOF_TYPE_KEYWORDS : List Str :=
  [ ("ROOFING - RESIDENTIAL").data
  , ("ROOFING - COMMERCIAL").data
  , ("ROOFING RESIDENTIAL").data
  , ("ROOFING COMMERCIAL").data
  , ("ROOFING").data
  , ("REROOF").data
  , ("RE-ROOF").data
  , ("RE ROOF").data
  , ("ROOF REPLAC").data
  , ("ROOF").data ]

/-- The mojibake substitution inside `utils.norm` (`.replace("â€“", "-")`).
(Uppercasing is modelled ASCII-only, so the lowercase pattern survives to
this substitution; the substitution is irrelevant to the ASCII keywords.) -/
def replaceDash : Str → Str
  | 'â' :: '€' :: '“' :: rest => '-' :: replaceDash rest
  | c :: rest => c :: replaceDash rest
  | [] => []

/-- `utils.norm`: upper-case, mojibake dash fix, strip. -/
def norm (s : Str) : Str := pyStrip (replaceDash (s.map upChar))

/-- `utils.block_is_roof`. -/
def block_is_roof (type_line block_text : Str) : Bool :=
  let t := norm type_line
  if ROOF_TYPE_KEYWORDS.any (fun k => hasSubB k t) then true
  else
    let bt := norm block_text
    ROOF_TYPE_KEYWORDS.any (fun k => hasSubB k bt)

/-- Two-digit-year pivot of `strptime`'s `%y` (00–68 → 2000s, 69–99 → 1900s). -/
def y2kPivot (v : Nat) : Nat := if v ≤ 68 then 2000 + v else 1900 + v

/-- `utils.parse_date`: try `%m/%d/%Y` then `%m/%d/%y`; both formats
want one-to-two-digit month/day and an exactly four- (resp. two-) digit
year, the whole token consumed; `datetime` construction validates the
calendar.  `None` when nothing parses. -/
def parse_date (tok : Str) : Option Int :=
  let t := pyStrip tok
  match splitOnChar '/' t with
  | [ms, ds, ys] =>
    if ms ≠ [] ∧ ms.length ≤ 2 ∧ ms.all Char.isDigit ∧
       ds ≠ [] ∧ ds.length ≤ 2 ∧ ds.all Char.isDigit ∧ ys.all Char.isDigit then
      if ys.length = 4 then mkDateDays (digitsVal ys) (digitsVal ms) (digitsVal ds)
      else if ys.length = 2 then mkDateDays (y2kPivot (digitsVal ys)) (digitsVal ms) (digitsVal ds)
      else none
    else none
  | _ => none

/-- `utils.valid_date`, with `FUTURE_CUTOFF` abstracted to the largest
acceptable day number `cutoff` (the day of `now + 1 day`): a date is
dropped exactly when it is strictly later than the cutoff. -/
def valid_date (cutoff : Int) : Option Int → Option Int
  | none => none
  | some d => if cutoff < d then none else some d

/-- `utils.roof_age_years` on a present date: `(now - d).days / 365.25`,
exactly, over ℚ — `days / (1461/4)` is the rational `4·days / 1461`,
built with `mkRat` so that it evaluates. -/
def ageQ (today d : Int) : ℚ := mkRat ((today - d) * 4) 1461

/-- A parsed permit block (`utils.parse_permit_blocks_from_text` element):
permit number, type line, the three candidate dates, raw block text. -/
structure PermitBlock where
  permit_no : Str := []
  type_line : Str := []
  issued_date : Option Int := none
  finalized_date : Option Int := none
  applied_date : Option Int := none
  raw : Str := []
deriving DecidableEq

/-! ## scanner.py — `EnerGovScanner._parse_best_roof` (the classifier) -/

/-- The classifier's result dict.  Dates stay abstract day numbers (their
`strftime` presentation is irrelevant to the claims); `roof_years` and
`is_20plus` keep their dynamic Python type via `PyVal`, because the
scanner returns a native float / native bool there (or `""`). -/
structure ScanResult where
  roof_detected : Bool := false
  permit_no : Str := []
  type_line : Str := []
  issued : Option Int := none
  finalized : Option Int := none
  applied : Option Int := none
  roof_date : Option Int := none
  roof_years : PyVal := .str []
  is_20plus : PyVal := .str []
deriving DecidableEq

/-- `best_date` inside `_parse_best_roof`: valid issued, else valid
finalized, else valid applied, else `datetime.min`. -/
def best_date (cutoff : Int) (b : PermitBlock) : Int :=
  match valid_date cutoff b.issued_date with
  | some d => d
  | none =>
    match valid_date cutoff b.finalized_date with
    | some d => d
    | none =>
      match valid_date cutoff b.applied_date with
      | some d => d
      | none => dtMin

/-- The valid-date precedence chain `issued_dt or finalized_dt or applied_dt`. -/
def precedence_date (cutoff : Int) (b : PermitBlock) : Option Int :=
  match valid_date cutoff b.issued_date with
  | some d => some d
  | none =>
    match valid_date cutoff b.finalized_date with
    | some d => some d
    | none => valid_date cutoff b.applied_date

/-- `EnerGovScanner._parse_best_roof`, from the list of parsed blocks on:
filter roofing blocks, take the (first) block maximising `best_date`,
report its fields; age/20-plus only when a valid date exists, else the
empty string stands in (`yrs if yrs is not None else ""`). -/
def parse_best_roof_blocks (cutoff today : Int) (blocks : List PermitBlock) : ScanResult :=
  let roof_blocks := blocks.filter (fun b => block_is_roof b.type_line b.raw)
  match roof_blocks with
  | [] => { roof_detected := false }
  | b :: bs =>
    let best := pyMaxBy (best_date cutoff) b bs
    let issued_dt := valid_date cutoff best.issued_date
    let finalized_dt := valid_date cutoff best.finalized_date
    let applied_dt := valid_date cutoff best.applied_date
    let roof_dt := precedence_date cutoff best
    { roof_detected := true
      permit_no := best.permit_no
      type_line := best.type_line
      issued := issued_dt
      finalized := finalized_dt
      applied := applied_dt
      roof_date := roof_dt
      roof_years :=
        match roof_dt with
        | some d => PyVal.float (ageQ today d)
        | none => PyVal.str []
      is_20plus :=
        match roof_dt with
        | some d => PyVal.pybool (decide ((20 : ℚ) ≤ ageQ today d))
        | none => PyVal.str [] }

/-! ## utils.py — `parse_permit_blocks_from_text` (the extractor) -/

/-- `\b` to the left of a word character: start of text or a non-word
predecessor. -/
def boundaryBefore : Option Char → Bool
  | none => true
  | some p => !isWordChar p

/-- `\b` to the right of a word character: end of text or a non-word
successor. -/
def boundaryAfterOk : Str → Bool
  | [] => true
  | c :: _ => !isWordChar c

/-- The tail of `(?i)^\s*Type\s*:?\s+` after the literal `Type` (the
lines are pre-stripped, so `^\s*` is vacuous): the pattern matches iff
the next character is whitespace, or it is `:` followed by whitespace. -/
def typeTailMatch : Str → Bool
  | [] => false
  | c :: rest =>
    if isWsChar c then true
    else if c = ':' then
      match rest with
      | c2 :: _ => isWsChar c2
      | [] => false
    else false

/-- `utils.extract_type_line`: first line matching `(?i)^\s*Type\s*:?\s+`,
returned stripped; `""` when none matches. -/
def extract_type_line : List Str → Str
  | [] => []
  | l :: rest =>
    if isPreB (("type").data) (l.map lowChar) && typeTailMatch (l.drop 4) then pyStrip l
    else extract_type_line rest

/-- Capture of `(\d{1,2}/\d{1,2}/\d{2,4})` anchored at the head of `t`
(greedy, as the regex engine resolves it: each digit group takes a
maximal run, the year keeping at most four digits). -/
def captureDateTok (t : Str) : Option Str :=
  let r1 := t.takeWhile Char.isDigit
  if r1.length = 0 || r1.length > 2 then none
  else
    match t.drop r1.length with
    | '/' :: t2 =>
      let r2 := t2.takeWhile Char.isDigit
      if r2.length = 0 || r2.length > 2 then none
      else
        match t2.drop r2.length with
        | '/' :: t3 =>
          let r3 := t3.takeWhile Char.isDigit
          if r3.length < 2 then none
          else some (r1 ++ '/' :: r2 ++ '/' :: r3.take 4)
        | _ => none
    | _ => none

/-- `\s*:?\s*` followed by the date capture (the character classes are
disjoint, so the greedy match is deterministic). -/
def dateTokAfter (t : Str) : Option Str :=
  let t1 := t.dropWhile isWsChar
  let t2 := match t1 with
    | ':' :: r => r.dropWhile isWsChar
    | _ => t1
  captureDateTok t2

/-- `utils.extract_field`: leftmost occurrence of
`(?i)\b{label}\b\s*:?\s*(\d{1,2}/\d{1,2}/\d{2,4})`; `label` is passed
lower-cased.  Returns the captured date token. -/
def fieldScan (label : Str) : Option Char → Str → Option Str
  | _, [] => none
  | prev, c :: rest =>
    if boundaryBefore prev && isPreB label ((c :: rest).map lowChar) then
      let t := (c :: rest).drop label.length
      match (if boundaryAfterOk t then dateTokAfter t else none) with
      | some tok => some tok
      | none => fieldScan label (some c) rest
    else fieldScan label (some c) rest

def extract_field (blk : Str) (label : Str) : Option Str :=
  fieldScan label none blk

/-- Leftmost match of `(?i)Permit Number\s*:?\s*([A-Za-z0-9-]+)`:
returns the captured alphanumeric/hyphen token. -/
def permitNoScan : Str → Option Str
  | [] => none
  | c :: rest =>
    if isPreB (("permit number").data) ((c :: rest).map lowChar) then
      let t := (c :: rest).drop 13
      let t1 := t.dropWhile isWsChar
      let t2 := match t1 with
        | ':' :: r => r.dropWhile isWsChar
        | _ => t1
      let tok := t2.takeWhile (fun ch => ch.isAlphanum || ch = '-')
      if tok ≠ [] then some tok else permitNoScan rest
    else permitNoScan rest

/-- Start positions of `(?i)Permit Number\s*:?` under `finditer`.
Occurrences of the 13-character marker cannot overlap and the `\s*:?`
tail never covers a following marker start, so the finditer starts are
exactly the positions where the marker is a (case-insensitive) prefix. -/
def markerHits (txt : Str) : List Nat :=
  (List.range txt.length).filter
    (fun i => isPreB (("permit number").data) ((txt.drop i).map lowChar))

/-- `txt[hits[k] : hits[k+1]].strip()` for consecutive hits, the last
block running to the end of the text. -/
def blockSlices (txt : Str) : List Nat → List Str
  | [] => []
  | [i] => [pyStrip (txt.drop i)]
  | i :: j :: rest => pyStrip ((txt.drop i).take (j - i)) :: blockSlices txt (j :: rest)

/-- `str.splitlines` on `\n` / `\r` / `\r\n` boundaries (callers strip
and drop empty lines, so the trailing-empty-piece difference from
Python's splitlines is immaterial). -/
def splitLines : Str → List Str
  | [] => [[]]
  | '\r' :: '\n' :: rest => [] :: splitLines rest
  | '\n' :: rest => [] :: splitLines rest
  | '\r' :: rest => [] :: splitLines rest
  | c :: rest =>
    match splitLines rest with
    | [] => [[c]]
    | g :: gs => (c :: g) :: gs

/-- Parsing of one raw block into a `PermitBlock`. -/
def parseBlock (blk : Str) : PermitBlock :=
  let lines := ((splitLines blk).map pyStrip).filter (fun l => l ≠ [])
  { permit_no := (permitNoScan blk).getD []
    type_line := extract_type_line lines
    issued_date := (extract_field blk (("issued date").data)).bind parse_date
    finalized_date := (extract_field blk (("finalized date").data)).bind parse_date
    applied_date := (extract_field blk (("applied date").data)).bind parse_date
    raw := blk }

/-- `utils.parse_permit_blocks_from_text`. -/
def parse_permit_blocks_from_text (pageText : Str) : List PermitBlock :=
  if pageText = [] then []
  else
    let txt := replaceCRLF pageText
    let hits := markerHits txt
    if hits = [] then []
    else
      let rawBlocks := (blockSlices txt hits).filter (fun b => b ≠ [])
      rawBlocks.map parseBlock

/-- Extractor followed by classifier, as `EnerGovScanner._parse_best_roof`
runs on raw page text. -/
def parse_best_roof (cutoff today : Int) (pageText : Str) : ScanResult :=
  parse_best_roof_blocks cutoff today (parse_permit_blocks_from_text pageText)

/-! ## app.py — pacing policy of `run_scan` -/

/-- What a single loop iteration observed, as far as the error counter
is concerned. -/
inductive IterOutcome where
  | detected
  | noRoofNoError
  | resultError
  | exceptionRaised
deriving DecidableEq

/-- The `consecutive_errors` update of one `run_scan` iteration:
`0` after a detected permit, `consecutive_errors + 1 if err else 0`
after a non-detected result, `+ 1` after an exception. -/
def nextConsecutiveErrors (prev : Nat) : IterOutcome → Nat
  | .detected => 0
  | .noRoofNoError => 0
  | .resultError => prev + 1
  | .exceptionRaised => prev + 1

/-- The adaptive `extra` penalty at the bottom of the loop body. -/
def extraDelay (consecutiveErrors : Nat) : ℚ :=
  if 4 ≤ consecutiveErrors then 8/5
  else if consecutiveErrors = 3 then 1
  else if consecutiveErrors = 2 then 3/5
  else 0

/-- `base_delay`: `max(0.6, delay)`, lowered to `max(0.4, delay)` in fast
mode. -/
def baseDelayOf (delaySeconds : ℚ) (fastMode : Bool) : ℚ :=
  if fastMode then max (2/5) delaySeconds else max (3/5) delaySeconds

/-- The argument of `time.sleep` for one iteration (`jitter` stands for
the `random.uniform(0.15, 0.55)` draw). -/
def iterationDelay (baseDelay : ℚ) (consecutiveErrors : Nat) (jitter : ℚ) : ℚ :=
  baseDelay + extraDelay consecutiveErrors + jitter

/-! ## connectors/energov.py — address normalization -/

/-- `_clean_spaces`: commas to spaces, whitespace runs to one space, strip. -/
def clean_spaces (s : Str) : Str :=
  pyStrip (collapseWs (s.map (fun c => if c = ',' then ' ' else c)))

/-- `\bFL\b` matching at the head of `s` (with `prev` the character to
the left). -/
def flMatchHere (prev : Option Char) (s : Str) : Bool :=
  match s with
  | 'F' :: 'L' :: r2 => boundaryBefore prev && boundaryAfterOk r2
  | _ => false

/-- `re.sub(r"\bFL\b.*$", "", s)`: cut everything from the leftmost
word-bounded `FL` on (at this stage the string has no newlines, so
`.*$` reaches the end). -/
def cutFL (prev : Option Char) : Str → Str
  | [] => []
  | c :: rest =>
    if flMatchHere prev (c :: rest) then []
    else c :: cutFL (some c) rest

/-- One alternative of `\b(?:APT|UNIT|STE|SUITE|#)\b` matching at the
head of `s`.  For the letter alternatives `\b` needs a non-word (or
absent) neighbour on both sides; for `#` (a non-word character) `\b`
needs a word character on both sides. -/
def unitMarkerAt (prev : Option Char) (s : Str) : Bool :=
  (boundaryBefore prev && isPreB (("APT").data) s && boundaryAfterOk (s.drop 3)) ||
  (boundaryBefore prev && isPreB (("UNIT").data) s && boundaryAfterOk (s.drop 4)) ||
  (boundaryBefore prev && isPreB (("STE").data) s && boundaryAfterOk (s.drop 3)) ||
  (boundaryBefore prev && isPreB (("SUITE").data) s && boundaryAfterOk (s.drop 5)) ||
  (match s, prev with
   | '#' :: rest, some p =>
     isWordChar p && (match rest with | c :: _ => isWordChar c | [] => false)
   | _, _ => false)

/-- `re.sub(rf"\b(?:APT|UNIT|STE|SUITE|#)\b.*$", "", s)`. -/
def cutUnitMk : Option Char → Str → Str
  | _, [] => []
  | prev, c :: rest =>
    if unitMarkerAt prev (c :: rest) then []
    else c :: cutUnitMk (some c) rest

/-- `connectors.energov.normalize_address`. -/
def normalize_address (raw : Str) : Str :=
  let s1 := (clean_spaces raw).map upChar
  let s2 := pyStrip (cutFL none s1)
  pyStrip (cutUnitMk none s2)

/-! ## connectors/energov.py — `_ensure_wpb_search_url` -/

def wpbFragment : Str := ("/search?m=2&ps=10&pn=1&em=true").data

/-- Split at the first `#` (how `urlparse` isolates the fragment). -/
def splitFrag : Str → Str × Option Str
  | [] => ([], none)
  | c :: rest =>
    if c = '#' then ([], some rest)
    else (c :: (splitFrag rest).1, (splitFrag rest).2)

/-- `_ensure_wpb_search_url`.  The source's two non-trivial branches
(fragment mentions `search` without params / no usable fragment) both
rebuild the URL via `urlunparse` with the canonical WPB search fragment;
`urlparse`/`urlunparse` round-tripping of the pre-fragment part is
modelled as the identity, so both branches are `base # wpbFragment`. -/
def ensure_wpb_search_url (url : Str) : Str :=
  let u := pyStrip url
  if u = [] then u
  else
    let bf := splitFrag u
    let frag := (bf.2).getD []
    if hasSubB (("search?m=").data) (frag.map lowChar) then u
    else bf.1 ++ '#' :: wpbFragment

/-! ## connectors/energov.py — row-level extraction and `search_roof` -/

/-- A Python `datetime.date` by components (comparisons are
lexicographic on `(y, m, d)`). -/
structure PyDate where
  y : Nat
  m : Nat
  d : Nat
deriving DecidableEq

/-- Order key realising the lexicographic `(y, m, d)` comparison
(`m ≤ 12 < 100` and `d ≤ 31 < 100` for constructible dates). -/
def dateOrd (dt : PyDate) : Int := (dt.y * 10000 + dt.m * 100 + dt.d : Nat)

def pyDateDays (dt : PyDate) : Int := civilToDays dt.y dt.m dt.d

/-- `_dt.date(y, m, d)`: `None` when the constructor would raise. -/
def mkPyDate (y m d : Nat) : Option PyDate :=
  if 1 ≤ m ∧ m ≤ 12 ∧ 1 ≤ d ∧ d ≤ daysInMonth y m ∧ 1 ≤ y ∧ y ≤ 9999 then
    some ⟨y, m, d⟩
  else none

def charDigitVal (c : Char) : Nat := c.toNat - 48

/-- Month alternatives of `_DATE_RE` (`0?[1-9]|1[0-2]`) anchored at the
head, in regex alternation order, with consumed length. -/
def monthCands : Str → List (Nat × Nat)
  | '0' :: c :: _ =>
    if '1' ≤ c && c ≤ '9' then [(charDigitVal c, 2)] else []
  | c :: rest =>
    (if '1' ≤ c && c ≤ '9' then [(charDigitVal c, 1)] else []) ++
    (if c = '1' then
       match rest with
       | c2 :: _ => if '0' ≤ c2 && c2 ≤ '2' then [(10 + charDigitVal c2, 2)] else []
       | [] => []
     else [])
  | [] => []

/-- Day alternatives of `_DATE_RE` (`0?[1-9]|[12]\d|3[01]`). -/
def dayCands : Str → List (Nat × Nat)
  | '0' :: c :: _ =>
    if '1' ≤ c && c ≤ '9' then [(charDigitVal c, 2)] else []
  | c :: rest =>
    (if '1' ≤ c && c ≤ '9' then [(charDigitVal c, 1)] else []) ++
    (if c = '1' || c = '2' then
       match rest with
       | c2 :: _ => if c2.isDigit then [(10 * charDigitVal c + charDigitVal c2, 2)] else []
       | [] => []
     else []) ++
    (if c = '3' then
       match rest with
       | c2 :: _ => if c2 = '0' || c2 = '1' then [(30 + charDigitVal c2, 2)] else []
       | [] => []
     else [])
  | [] => []

/-- Year part `(19|20)\d{2}` anchored at the head. -/
def yearAt : Str → Option (Nat × Str)
  | c1 :: c2 :: c3 :: c4 :: rest =>
    if ((c1 = '1' && c2 = '9') || (c1 = '2' && c2 = '0')) && c3.isDigit && c4.isDigit then
      some (digitsVal [c1, c2, c3, c4], rest)
    else none
  | _ => none

def firstHit (l : List α) (f : α → Option β) : Option β :=
  match l with
  | [] => none
  | a :: rest =>
    match f a with
    | some b => some b
    | none => firstHit rest f

/-- A `_DATE_RE` match attempt anchored at the head of `s` (the leading
`\b` already checked by the caller), backtracking through the month/day
alternatives, with the trailing `\b`.  On success: the `_parse_date`
result (`none` for a calendar-invalid date) and the remaining text. -/
def tryDateAt (s : Str) : Option (Option PyDate × Str) :=
  firstHit (monthCands s) (fun mk =>
    match s.drop mk.2 with
    | '/' :: s2 =>
      firstHit (dayCands s2) (fun dk =>
        match s2.drop dk.2 with
        | '/' :: s3 =>
          match yearAt s3 with
          | some yr =>
            if boundaryAfterOk yr.2 then some (mkPyDate yr.1 mk.1 dk.1, yr.2) else none
          | none => none
        | _ => none)
    | _ => none)

/-- `_DATE_RE.finditer` over the row text, keeping the parse-valid dates
(`for dv in dvals: dd = _parse_date(dv); if dd: append`).  `fuel` only
funds the left-to-right sweep (one unit per advanced position, so
`length + 1` always suffices); after a match the scan resumes past it —
the character before the resume point is the year's last digit, a word
character, represented here by `'9'`. -/
def scanDatesAux : Nat → Option Char → Str → List PyDate
  | 0, _, _ => []
  | _ + 1, _, [] => []
  | fuel + 1, prev, c :: rest =>
    if boundaryBefore prev then
      match tryDateAt (c :: rest) with
      | some (od, rem) =>
        (match od with | some dt => [dt] | none => []) ++ scanDatesAux fuel (some '9') rem
      | none => scanDatesAux fuel (some c) rest
    else scanDatesAux fuel (some c) rest

def scanDates (s : Str) : List PyDate := scanDatesAux (s.length + 1) none s

/-- A `_PERMIT_RE` (`\b[A-Z]{0,4}\d{3,}(?:-\d+)?\b`) match attempt
anchored at the head (leading `\b` checked by the caller).  The letter
run and digit run are forced (shorter greedy choices leave a word
character adjacent to the match end), so only the optional `-\d+` group
backtracks. -/
def permitReAt (s : Str) : Option Str :=
  let letters := s.takeWhile (fun c => 'A' ≤ c && c ≤ 'Z')
  if letters.length > 4 then none
  else
    let t := s.drop letters.length
    let digits := t.takeWhile Char.isDigit
    if digits.length < 3 then none
    else
      match t.drop digits.length with
      | '-' :: r2 =>
        let d2 := r2.takeWhile Char.isDigit
        if d2 ≠ [] && boundaryAfterOk (r2.drop d2.length) then
          some (letters ++ digits ++ '-' :: d2)
        else some (letters ++ digits)
      | r => if boundaryAfterOk r then some (letters ++ digits) else none

def permitReScan : Option Char → Str → Str
  | _, [] => []
  | prev, c :: rest =>
    if boundaryBefore prev then
      match permitReAt (c :: rest) with
      | some m => m
      | none => permitReScan (some c) rest
    else permitReScan (some c) rest

/-- `_extract_permit_no`: first `_PERMIT_RE` match, else `""`. -/
def extract_permit_no (text : Str) : Str := permitReScan none text

/-- `_ROOF_TERMS`. -/
def ROOF_TERMS : List Str :=
  [ ("REROOF").data, ("RE-ROOF").data, ("RE ROOF").data
  , ("ROOF REPLAC").data, ("ROOF REPLACE").data, ("ROOFING").data, ("ROOF").data ]

/-- Step 9 of `EnerGovConnector.search_roof` for one result row: `None`
unless the upper-cased text mentions a roof term AND at least one
calendar-valid `_DATE_RE` date is present; otherwise the latest in-row
date, the extracted permit number, and the `REROOF`/`ROOF` type line. -/
def rowRoofing (txt : Str) : Option (PyDate × Str × Str) :=
  let up := txt.map upChar
  if !(ROOF_TERMS.any (fun k => hasSubB k up)) then none
  else
    match scanDates up with
    | [] => none
    | d :: ds =>
      let bestDate := pyMaxBy dateOrd d ds
      let permit_no := extract_permit_no up
      let type_line :=
        if hasSubB (("REROOF").data) up || hasSubB (("RE-ROOF").data) up ||
           hasSubB (("RE ROOF").data) up then ("REROOF").data
        else ("ROOF").data
      some (bestDate, permit_no, type_line)

/-- Rounding to one decimal, `f"{x:.1f}"`-style.  Half-up stands in for
the double's round-to-nearest: an exact decimal tie would need
`days·80 ≡ 0 (mod 2·1461)` with an odd quotient, impossible for integer
day counts, and the double's error (≲ 2⁻⁴⁵) is far below the distance
(≥ 1/2922) to any tie. -/
def round1dec (q : ℚ) : ℤ := ⌊q * 10 + 1 / 2⌋

/-- Decimal rendering of `f"{x:.1f}"`. -/
def format1f (q : ℚ) : Str :=
  let n := round1dec q
  (if n < 0 then ['-'] else []) ++ natToStr (n.natAbs / 10) ++ '.' :: natToStr (n.natAbs % 10)

def pad2 (n : Nat) : Str := if n < 10 then '0' :: natToStr n else natToStr n

def pad4 (n : Nat) : Str :=
  if n < 10 then '0' :: '0' :: '0' :: natToStr n
  else if n < 100 then '0' :: '0' :: natToStr n
  else if n < 1000 then '0' :: natToStr n
  else natToStr n

/-- `date.strftime("%m/%d/%Y")`. -/
def mdyFormat (dt : PyDate) : Str :=
  pad2 dt.m ++ '/' :: pad2 dt.d ++ '/' :: pad4 dt.y

/-- The universal connector result dict.  `roof_years` / `is_20plus`
keep their dynamic type via `PyVal`; everything else is a string. -/
structure ConnResult where
  roof_detected : Bool := false
  query_used : Str := []
  permit_no : Str := []
  type_line : Str := []
  roof_date : Str := []
  issued : Str := []
  finalized : Str := []
  applied : Str := []
  roof_years : PyVal := .str []
  is_20plus : PyVal := .str []
  error : Str := []
deriving DecidableEq

/-- What the browser interaction of one `search_roof` call can observe
(steps 1–8 drive an external portal; each failure mode is a distinct
typed result in the source). -/
inductive PortalObs where
  | noInput
  | gridNotFound
  | noResultRows
  | timeoutRaised
  | unexpectedRaised (msg : Str)
  | resultRows (rows : List Str)

/-- `EnerGovConnector.search_roof`: normalize the address (empty ⇒ fail
fast), then, per the portal observation, either a typed error result or
the row classification of steps 9–10 (at most 140 rows are read). -/
def search_roof (today : Int) (address : Str) (obs : PortalObs) : ConnResult :=
  let q := normalize_address address
  if q = [] then
    { roof_detected := false, error := ("Empty address").data, query_used := [] }
  else
    match obs with
    | .noInput =>
      { roof_detected := false, error := ("EnerGov page: no input fields found").data, query_used := q }
    | .gridNotFound =>
      { roof_detected := false, error := ("EnerGov: results grid not found").data, query_used := q }
    | .noResultRows =>
      { roof_detected := false, error := ("EnerGov: no result rows detected").data, query_used := q }
    | .timeoutRaised =>
      { roof_detected := false, error := ("EnerGov timeout loading/searching").data, query_used := q }
    | .unexpectedRaised msg =>
      { roof_detected := false, error := ("EnerGov error: ").data ++ msg, query_used := q }
    | .resultRows rows =>
      let roofing := (rows.take 140).filterMap rowRoofing
      match roofing with
      | [] =>
        { roof_detected := false, error := ("NO_ROOF_PERMIT_FOUND").data, query_used := q }
      | e :: es =>
        let best := pyMaxBy (fun t => dateOrd t.1) e es
        let yrs := ageQ today (pyDateDays best.1)
        { roof_detected := true
          query_used := q
          permit_no := best.2.1
          type_line := best.2.2
          roof_date := mdyFormat best.1
          issued := []
          finalized := []
          applied := []
          roof_years := PyVal.str (format1f yrs)
          is_20plus := PyVal.str (if (20 : ℚ) ≤ yrs then ("True").data else ("False").data)
          error := [] }

/-! ## connectors/__init__.py and base.py — dispatch -/

structure JurisdictionM where
  id : Int := 0
  state : Str := []
  name : Str := []
  system : Str := []
  portal_url : Str := []
  active : Int := 1
deriving DecidableEq

inductive ConnectorM where
  | energov (portalUrl : Str)
deriving DecidableEq

/-- `EnerGovConnector.__post_init__`: strip the jurisdiction's URL,
force the WPB search fragment, and raise unless it starts with `http`. -/
def post_init_energov (rawUrl : Str) : Except Str ConnectorM :=
  let pu := ensure_wpb_search_url (pyStrip rawUrl)
  if isPreB (("http").data) pu then .ok (.energov pu)
  else .error (("Invalid EnerGov portal URL").data)

/-- `connectors.get_connector`: `"energov"` (after lower/strip) builds
the EnerGov connector; every other system raises
`Unsupported system: {j.system}`.  Raising is modelled by `Except.error`. -/
def get_connector (j : JurisdictionM) : Except Str ConnectorM :=
  let system := pyStrip (j.system.map lowChar)
  if system = ("energov").data then post_init_energov j.portal_url
  else .error (("Unsupported system: ").data ++ j.system)

/-! ## app.py — `run_scan` row construction and export cleanup -/

/-- One Lead Row (`utils.LeadRow`), all fields strings. -/
structure LeadRowM where
  address : Str := []
  jurisdiction : Str := []
  owner : Str := []
  mailing_address : Str := []
  phone : Str := []
  query_used : Str := []
  permit_no : Str := []
  type_line : Str := []
  roof_date_used : Str := []
  issued : Str := []
  finalized : Str := []
  applied : Str := []
  roof_years : Str := []
  is_20plus : Str := []
  status : Str := []
  seconds : Str := []
deriving DecidableEq

/-- Python `str(v)` on the dynamic values that reach it
(`str(True) = "True"`, `str("x") = "x"`); the float branch is
unreachable from connector results and rendered one-decimal. -/
def pyValStr : PyVal → Str
  | .str s => s
  | .pybool b => if b then ("True").data else ("False").data
  | .float q => format1f q

/-- The `yrs_str` computation of `run_scan`: empty stays empty; a
non-empty string round-trips through `float(...)` / `:.1f` (an identity
on the one-decimal strings the connector emits); a native float is
formatted to one decimal. -/
def yrsStrOf : PyVal → Str
  | .str s => s
  | .float q => format1f q
  | .pybool b => if b then ('1' :: '.' :: ['0']) else ('0' :: '.' :: ['0'])

/-- One iteration's produced row: either the connector returned a result
dict, or the per-address `except` caught an exception. -/
inductive AddrOutcome where
  | result (today : Int) (obs : PortalObs)
  | excRaised (ename emsg : Str)

/-- The Lead Row `run_scan` appends for one address. -/
def lead_row_of (addr jname owner mailing phone secs : Str) (out : AddrOutcome) : LeadRowM :=
  match out with
  | .excRaised ename emsg =>
    { address := addr, jurisdiction := jname, owner := owner
      mailing_address := mailing, phone := phone
      status := ("ERROR: ").data ++ ename ++ (": ").data ++ emsg
      seconds := secs }
  | .result today obs =>
    let res := search_roof today addr obs
    if !res.roof_detected then
      let err := pyStrip res.error
      let status :=
        if err = [] then ("NO_ROOF_PERMIT_FOUND").data
        else ("ERROR: ").data ++ err
      { address := addr, jurisdiction := jname, owner := owner
        mailing_address := mailing, phone := phone
        query_used := res.query_used, status := status, seconds := secs }
    else
      { address := addr, jurisdiction := jname, owner := owner
        mailing_address := mailing, phone := phone
        query_used := res.query_used
        permit_no := res.permit_no
        type_line := res.type_line
        roof_date_used := res.roof_date
        issued := res.issued, finalized := res.finalized, applied := res.applied
        roof_years := yrsStrOf res.roof_years
        is_20plus := pyValStr res.is_20plus
        status := ("OK").data
        seconds := secs }

/-- The fixed CSV header of `write_csv`. -/
def csvHeader : List Str :=
  [ ("address").data, ("jurisdiction").data, ("owner").data, ("mailing_address").data
  , ("phone").data, ("query_used").data, ("permit_no").data, ("type_line").data
  , ("roof_date_used").data, ("issued").data, ("finalized").data, ("applied").data
  , ("roof_years").data, ("is_20plus").data, ("status").data, ("seconds").data ]

/-- The per-row cells of `write_csv`, in header order. -/
def csvRowCells (r : LeadRowM) : List Str :=
  [ r.address, r.jurisdiction, r.owner, r.mailing_address
  , r.phone, r.query_used, r.permit_no, r.type_line
  , r.roof_date_used, r.issued, r.finalized, r.applied
  , r.roof_years, r.is_20plus, r.status, r.seconds ]

/-- `write_csv`: header line then one line per row. -/
def writeCsvLines (rows : List LeadRowM) : List (List Str) :=
  csvHeader :: rows.map csvRowCells

/-- The observable actions of `run_scan`'s `finally` block, in program
order. -/
inductive ScanExitEvent where
  | setRunningFalse
  | setFinishedAt
  | setMessageDone
  | writeCsvFile (nameTag : Str) (lines : List (List Str))
deriving DecidableEq

def isWriteEvent : ScanExitEvent → Bool
  | .writeCsvFile _ _ => true
  | _ => false

/-- The `finally` block of `run_scan`: under the lock, snapshot the rows
and the 20-plus subset, clear `running`, stamp `finished_at`, set the
message; then (outside the lock) write the two CSV exports.  The block
runs on every loop exit — normal, stopped, or exceptional. -/
def run_scan_finally (rows : List LeadRowM) : List ScanExitEvent :=
  let rowsCopy := rows
  let goodCopy := rowsCopy.filter (fun r => r.is_20plus = ("True").data)
  [ .setRunningFalse
  , .setFinishedAt
  , .setMessageDone
  , .writeCsvFile (("leads_all").data) (writeCsvLines rowsCopy)
  , .writeCsvFile (("leads_good_20plus").data) (writeCsvLines goodCopy) ]

/-- The `consecutive_errors` update of one `run_scan` iteration, composed
with the connector: reset on a detected result, reset on a non-detected
result whose stripped error string is empty, increment otherwise and on
exceptions. -/
def consecutive_errors_update (prev : Nat) (addr : Str) (out : AddrOutcome) : Nat :=
  match out with
  | .excRaised _ _ => prev + 1
  | .result today obs =>
    let res := search_roof today addr obs
    if !res.roof_detected then
      (if pyStrip res.error = [] then 0 else prev + 1)
    else 0

/-- The payload of a CSV-write event. -/
def writePayload : ScanExitEvent → Option (Str × List (List Str))
  | .writeCsvFile n l => some (n, l)
  | _ => none

/-- The ordering C6 claims: both CSV writes happen strictly before the
running flag is cleared. -/
def writesBeforeClear (evs : List ScanExitEvent) : Bool :=
  ((evs.takeWhile (fun e => e ≠ ScanExitEvent.setRunningFalse)).filter isWriteEvent).length = 2

/-- C2's spec-side effective date, verbatim from the claim's words:
`issued_date` if present, else `finalized_date`, else `applied_date`,
else the earliest-possible date — with no future-validity filtering. -/
def claim_effective_date (b : PermitBlock) : Int :=
  match b.issued_date with
  | some d => d
  | none =>
    match b.finalized_date with
    | some d => d
    | none =>
      match b.applied_date with
      | some d => d
      | none => dtMin

/-- Recognizable street suffixes, for C8's hypothesis. -/
def streetSuffixes : List Str :=
  [ ("ST").data, ("AVE").data, ("RD").data, ("DR").data, ("LN").data, ("CT").data
  , ("BLVD").data, ("WAY").data, ("TER").data, ("PL").data, ("CIR").data ]

/-! Concrete inputs used by witnesses and counterexamples. -/

/-- A roofing block whose issued date lies beyond the future cutoff and
whose finalized date is old (C2's counterexample input). -/
def futureIssuedBlk : PermitBlock :=
  { permit_no := ("R1").data
    type_line := ("Type: ROOFING - RESIDENTIAL").data
    issued_date := some 30000
    finalized_date := some 10000
    raw := ("Permit Number: R1").data }

/-- A roofing block with no dates at all (C4/C5 edge input). -/
def datelessRoofBlk : PermitBlock :=
  { permit_no := ("R9").data
    type_line := ("Type: ROOFING").data
    raw := ("Permit Number: R9").data }

/-- A dated roofing block (witness input). -/
def datedRoofBlk : PermitBlock :=
  { permit_no := ("R24-0001").data
    type_line := ("Type: ROOFING - RESIDENTIAL").data
    issued_date := some 10957
    raw := ("Permit Number: R24-0001").data }

/-- A non-roofing block (witness input). -/
def fenceBlk : PermitBlock :=
  { permit_no := ("F1").data
    type_line := ("Type: FENCE").data
    issued_date := some 15000
    raw := ("Permit Number: F1").data }

/-- A result row as the EnerGov portal renders one (witness input). -/
def sampleRoofRow : Str := ("REROOF 01/15/2001 AB1234").data

def sampleAddress : Str := ("100 Main St").data

/-- 2026-10-12 as a day number (a concrete "today"). -/
def sampleToday : Int := civilToDays 2026 10 12

/-! ## General lemmas about the text primitives -/

theorem toNat_ofNat_small (n : Nat) (h : n < 55296) : (Char.ofNat n).toNat = n := by
  have hv : n.isValidChar := Or.inl h
  simp [Char.ofNat, hv, Char.ofNatAux, Char.toNat, UInt32.toNat, UInt32.ofNat',
    BitVec.toNat_ofNatLt]

theorem isLowerAscii_iff {c : Char} : isLowerAscii c = true ↔ 97 ≤ c.toNat ∧ c.toNat ≤ 122 := by
  simp only [isLowerAscii, Bool.and_eq_true, decide_eq_true_eq]
  exact Iff.rfl

theorem isUpperAscii_iff {c : Char} : isUpperAscii c = true ↔ 65 ≤ c.toNat ∧ c.toNat ≤ 90 := by
  simp only [isUpperAscii, Bool.and_eq_true, decide_eq_true_eq]
  exact Iff.rfl

theorem upChar_toNat {c : Char} (h : isLowerAscii c = true) :
    (upChar c).toNat = c.toNat - 32 := by
  obtain ⟨h1, h2⟩ := isLowerAscii_iff.mp h
  rw [upChar, if_pos h]
  exact toNat_ofNat_small _ (by omega)

theorem upChar_not_lower (c : Char) : isLowerAscii (upChar c) = false := by
  by_cases h : isLowerAscii c = true
  · obtain ⟨h1, h2⟩ := isLowerAscii_iff.mp h
    have ht := upChar_toNat h
    cases hc : isLowerAscii (upChar c) with
    | false => rfl
    | true =>
      obtain ⟨g1, g2⟩ := isLowerAscii_iff.mp hc
      omega
  · rw [upChar, if_neg h]
    simpa using h

theorem upChar_eq_low {c t : Char} (ht : t.toNat < 65) (he : upChar c = t) : c = t := by
  by_cases h : isLowerAscii c = true
  · obtain ⟨h1, h2⟩ := isLowerAscii_iff.mp h
    have : (upChar c).toNat = t.toNat := congrArg Char.toNat he
    rw [upChar_toNat h] at this
    omega
  · rwa [upChar, if_neg h] at he

theorem upChar_digit {c : Char} (h : c.isDigit = true) : upChar c = c := by
  have h2 : c.toNat ≤ 57 := by
    simp only [Char.isDigit, Bool.and_eq_true, decide_eq_true_eq] at h
    exact h.2
  rw [upChar, if_neg]
  intro hl
  have := (isLowerAscii_iff.mp hl).1
  omega

theorem lowChar_eq_low_iff {c t : Char} (ht : t.toNat < 65) : lowChar c = t ↔ c = t := by
  constructor
  · intro he
    by_cases h : isUpperAscii c = true
    · obtain ⟨h1, h2⟩ := isUpperAscii_iff.mp h
      rw [lowChar, if_pos h] at he
      have : (Char.ofNat (c.toNat + 32)).toNat = t.toNat := congrArg Char.toNat he
      rw [toNat_ofNat_small _ (by omega)] at this
      omega
    · rwa [lowChar, if_neg h] at he
  · intro he
    subst he
    rw [lowChar, if_neg]
    intro hu
    have := (isUpperAscii_iff.mp hu).1
    omega

theorem isPreB_iff_append {p : Str} : ∀ {s : Str}, isPreB p s = true ↔ ∃ t, s = p ++ t := by
  induction p with
  | nil => intro s; simp [isPreB]
  | cons a as ih =>
    intro s
    cases s with
    | nil => simp [isPreB]
    | cons b bs =>
      simp only [isPreB, Bool.and_eq_true, decide_eq_true_eq, ih]
      constructor
      · rintro ⟨rfl, t, rfl⟩
        exact ⟨t, rfl⟩
      · rintro ⟨t, ht⟩
        rw [List.cons_append] at ht
        obtain ⟨h1, h2⟩ := List.cons_eq_cons.mp ht
        exact ⟨h1.symm, t, h2⟩

theorem isPreB_append_self (d t : Str) : isPreB d (d ++ t) = true :=
  isPreB_iff_append.mpr ⟨t, rfl⟩

theorem hasSubB_cons_of {p rest : Str} (c : Char) (h : hasSubB p rest = true) :
    hasSubB p (c :: rest) = true := by
  simp [hasSubB, h]

theorem hasSubB_of_isPreB {p s : Str} (h : isPreB p s = true) : hasSubB p s = true := by
  cases s with
  | nil => simpa [hasSubB] using h
  | cons c rest => simp [hasSubB, h]

theorem hasSubB_of_pre_drop {p s : Str} :
    ∀ {i : Nat}, isPreB p (s.drop i) = true → hasSubB p s = true := by
  induction s with
  | nil => intro i h; simpa [List.drop_nil] using hasSubB_of_isPreB h
  | cons c rest ih =>
    intro i h
    cases i with
    | zero => exact hasSubB_of_isPreB h
    | succ i' => exact hasSubB_cons_of c (ih (by simpa using h))

/-- A (true) substring occurrence decomposes the list. -/
theorem hasSubB_iff_append {p : Str} : ∀ {s : Str}, hasSubB p s = true ↔ ∃ a b, s = a ++ p ++ b := by
  intro s
  induction s with
  | nil =>
    simp only [hasSubB, isPreB_iff_append]
    constructor
    · rintro ⟨t, ht⟩
      exact ⟨[], t, by simpa using ht⟩
    · rintro ⟨a, b, hab⟩
      have h0 : a ++ p ++ b = [] := hab.symm
      rw [List.append_assoc] at h0
      obtain ⟨-, hpb⟩ := List.append_eq_nil.mp h0
      obtain ⟨hp, -⟩ := List.append_eq_nil.mp hpb
      exact ⟨[], by simp [hp]⟩
  | cons c rest ih =>
    simp only [hasSubB, Bool.or_eq_true, isPreB_iff_append, ih]
    constructor
    · rintro (⟨t, ht⟩ | ⟨a, b, hab⟩)
      · exact ⟨[], t, by simpa using ht⟩
      · exact ⟨c :: a, b, by simp [hab]⟩
    · rintro ⟨a, b, hab⟩
      cases a with
      | nil => exact Or.inl ⟨b, by simpa using hab⟩
      | cons a0 as =>
        right
        rw [List.append_assoc] at hab
        obtain ⟨-, h2⟩ := List.cons_eq_cons.mp (by simpa using hab)
        exact ⟨as, b, by rw [h2, List.append_assoc]⟩

/-! Strip / dropWhile lemmas. -/

theorem head_dropWhile_false {p : Char → Bool} :
    ∀ {l : Str} {c : Char}, (l.dropWhile p).head? = some c → p c = false := by
  intro l
  induction l with
  | nil => intro c h; simp [List.dropWhile] at h
  | cons a as ih =>
    intro c h
    rw [List.dropWhile_cons] at h
    by_cases hp : p a = true
    · exact ih (by simpa [hp] using h)
    · simp only [hp] at h
      simp only [if_neg, Bool.false_eq_true, reduceIte, List.head?_cons, Option.some.injEq] at h
      subst h
      exact Bool.not_eq_true _ ▸ hp

theorem dropWhile_ne_nil_of_mem {p : Char → Bool} {l : Str} {c : Char}
    (hc : c ∈ l) (hp : p c = false) : l.dropWhile p ≠ [] := by
  intro h
  rw [List.dropWhile_eq_nil_iff] at h
  rw [h c hc] at hp
  exact Bool.true_eq_false.mp hp

theorem pyLStrip_ne_nil {l : Str} {c : Char} (hc : c ∈ l) (hw : isWsChar c = false) :
    pyLStrip l ≠ [] := dropWhile_ne_nil_of_mem hc hw

theorem pyRStrip_ne_nil {l : Str} {c : Char} (hc : c ∈ l) (hw : isWsChar c = false) :
    pyRStrip l ≠ [] := by
  unfold pyRStrip
  intro h
  have := List.reverse_eq_nil_iff.mp h
  exact dropWhile_ne_nil_of_mem (List.mem_reverse.mpr hc) hw this

theorem mem_of_mem_dropWhile {p : Char → Bool} {l : Str} {c : Char}
    (h : c ∈ l.dropWhile p) : c ∈ l := by
  have := List.takeWhile_append_dropWhile (p := p) (l := l)
  rw [← this]
  exact List.mem_append_right _ h

theorem mem_of_mem_pyStrip {l : Str} {c : Char} (h : c ∈ pyStrip l) : c ∈ l := by
  unfold pyStrip pyRStrip pyLStrip at h
  rw [List.mem_reverse] at h
  have h1 := mem_of_mem_dropWhile h
  rw [List.mem_reverse] at h1
  exact mem_of_mem_dropWhile h1

theorem pyStrip_ne_nil {l : Str} {c : Char} (hc : c ∈ l) (hw : isWsChar c = false) :
    pyStrip l ≠ [] := by
  unfold pyStrip
  apply pyRStrip_ne_nil (c := c) _ hw
  have hl := pyLStrip_ne_nil hc hw
  rcases hmem : l.dropWhile isWsChar with _ | ⟨a, as⟩
  · exact absurd hmem hl
  · by_cases hca : c ∈ l.dropWhile isWsChar
    · rwa [pyLStrip]
    · exfalso
      have hsplit := List.takeWhile_append_dropWhile (p := isWsChar) (l := l)
      rw [← hsplit] at hc
      rcases List.mem_append.mp hc with h1 | h1
      · have := List.mem_takeWhile_imp h1
        rw [this] at hw
        exact Bool.true_eq_false.mp hw
      · exact hca h1

/-- `pyRStrip` keeps the original up to a whitespace suffix. -/
theorem pyRStrip_append_eq (z : Str) :
    pyRStrip z ++ (z.reverse.takeWhile isWsChar).reverse = z := by
  unfold pyRStrip
  rw [← List.reverse_append, List.takeWhile_append_dropWhile, List.reverse_reverse]

theorem pyStrip_head_not_ws {l : Str} {c : Char} (h : (pyStrip l).head? = some c) :
    isWsChar c = false := by
  unfold pyStrip at h
  have happ := pyRStrip_append_eq (pyLStrip l)
  have hne : pyRStrip (pyLStrip l) ≠ [] := by
    intro hnil
    rw [hnil] at h
    simp at h
  have : (pyLStrip l).head? = some c := by
    rw [← happ, List.head?_append, h]
    rfl
  exact head_dropWhile_false this

theorem pyStrip_last_not_ws {l : Str} {c : Char} (h : (pyStrip l).getLast? = some c) :
    isWsChar c = false := by
  unfold pyStrip pyRStrip at h
  rw [List.getLast?_reverse] at h
  exact head_dropWhile_false h

theorem pyLStrip_eq_self {l : Str} (h : ∀ c, l.head? = some c → isWsChar c = false) :
    pyLStrip l = l := by
  cases l with
  | nil => rfl
  | cons a as =>
    unfold pyLStrip
    rw [List.dropWhile_cons, if_neg]
    rw [h a rfl]
    simp

theorem pyRStrip_eq_self {l : Str} (h : ∀ c, l.getLast? = some c → isWsChar c = false) :
    pyRStrip l = l := by
  unfold pyRStrip
  rw [show l.reverse.dropWhile isWsChar = l.reverse from ?_, List.reverse_reverse]
  cases hl : l.reverse with
  | nil => rfl
  | cons a as =>
    rw [List.dropWhile_cons, if_neg]
    have : l.getLast? = some a := by rw [← List.head?_reverse, hl]; rfl
    rw [h a this]
    simp

theorem pyStrip_idem (l : Str) : pyStrip (pyStrip l) = pyStrip l := by
  unfold pyStrip
  rw [show pyLStrip (pyRStrip (pyLStrip l)) = pyRStrip (pyLStrip l) from ?_]
  · exact pyRStrip_eq_self (fun c h => pyStrip_last_not_ws (l := l) h)
  · exact pyLStrip_eq_self (fun c h => pyStrip_head_not_ws (l := l) h)

/-! `pyMaxBy` (Python `max`) lemmas. -/

theorem pyMaxBy_mem {α : Type} (key : α → Int) :
    ∀ (l : List α) (b : α), pyMaxBy key b l ∈ b :: l := by
  intro l
  induction l with
  | nil => intro b; simp [pyMaxBy]
  | cons x xs ih =>
    intro b
    have h := ih (if key b < key x then x else b)
    simp only [pyMaxBy]
    by_cases hk : key b < key x
    · simp only [if_pos hk] at h ⊢
      rcases List.mem_cons.mp h with h1 | h1
      · rw [h1]; simp
      · simp [List.mem_cons_of_mem, h1]
    · simp only [if_neg hk] at h ⊢
      rcases List.mem_cons.mp h with h1 | h1
      · rw [h1]; simp
      · simp [List.mem_cons_of_mem, h1]

theorem le_pyMaxBy {α : Type} (key : α → Int) :
    ∀ (l : List α) (b : α), key b ≤ key (pyMaxBy key b l) := by
  intro l
  induction l with
  | nil => intro b; simp [pyMaxBy]
  | cons x xs ih =>
    intro b
    simp only [pyMaxBy]
    by_cases hk : key b < key x
    · simp only [if_pos hk]
      exact le_trans (le_of_lt hk) (ih x)
    · simpa [if_neg hk] using ih b

theorem pyMaxBy_ge_mem {α : Type} (key : α → Int) :
    ∀ (l : List α) (b x : α), x ∈ b :: l → key x ≤ key (pyMaxBy key b l) := by
  intro l
  induction l with
  | nil =>
    intro b x hx
    rcases List.mem_cons.mp hx with rfl | h1
    · simp [pyMaxBy]
    · simp at h1
  | cons y ys ih =>
    intro b x hx
    simp only [pyMaxBy]
    rcases List.mem_cons.mp hx with rfl | hx'
    · -- x = b
      by_cases hk : key x < key y
      · simp only [if_pos hk]
        exact le_trans (le_of_lt hk) (le_pyMaxBy key ys y)
      · simp only [if_neg hk]
        exact le_pyMaxBy key ys x
    · rcases List.mem_cons.mp hx' with rfl | hx2
      · -- x = y
        by_cases hk : key b < key x
        · simp only [if_pos hk]
          exact le_pyMaxBy key ys x
        · simp only [if_neg hk]
          exact le_trans (le_of_not_lt hk) (le_pyMaxBy key ys b)
      · by_cases hk : key b < key y
        · simp only [if_pos hk]
          exact ih y x (List.mem_cons_of_mem _ hx2)
        · simp only [if_neg hk]
          exact ih b x (List.mem_cons_of_mem _ hx2)

/-! Number-rendering lemmas. -/

theorem natToStr_ne_nil (n : Nat) : natToStr n ≠ [] := by
  unfold natToStr
  split
  · simp
  · simp

theorem natToStr_lt10 {n : Nat} (h : n < 10) : natToStr n = [Nat.digitChar n] := by
  unfold natToStr
  rw [if_pos h]

theorem digitChar_isDigit {n : Nat} (h : n < 10) : (Nat.digitChar n).isDigit = true := by
  interval_cases n <;> decide

theorem pad2_ne_nil (n : Nat) : pad2 n ≠ [] := by
  unfold pad2
  split
  · simp
  · exact natToStr_ne_nil n

theorem mdyFormat_ne_nil (dt : PyDate) : mdyFormat dt ≠ [] := by
  unfold mdyFormat
  intro h
  rcases List.append_eq_nil.mp h with ⟨h1, -⟩
  rcases List.append_eq_nil.mp h1 with ⟨h2, -⟩
  exact pad2_ne_nil dt.m h2

/-! ## Connector-level lemmas -/

/-- A detected `search_roof` result always carries a formatted
(hence non-empty) `roof_date`. -/
theorem search_roof_detected_roof_date {today : Int} {addr : Str} {obs : PortalObs}
    (h : (search_roof today addr obs).roof_detected = true) :
    (search_roof today addr obs).roof_date ≠ [] := by
  unfold search_roof at h ⊢
  by_cases hq : normalize_address addr = []
  · rw [if_pos hq] at h
    simp at h
  · rw [if_neg hq] at h ⊢
    cases obs with
    | noInput => simp at h
    | gridNotFound => simp at h
    | noResultRows => simp at h
    | timeoutRaised => simp at h
    | unexpectedRaised msg => simp at h
    | resultRows rows =>
      dsimp only at h ⊢
      rcases hr : (rows.take 140).filterMap rowRoofing with _ | ⟨e, es⟩
      · rw [hr] at h
        simp at h
      · exact mdyFormat_ne_nil _

/-- A non-detected `search_roof` result always carries a non-empty
(stripped) error string — including the clean "no roofing permit found"
case, reported as `NO_ROOF_PERMIT_FOUND`. -/
theorem search_roof_not_detected_error {today : Int} {addr : Str} {obs : PortalObs}
    (h : (search_roof today addr obs).roof_detected = false) :
    pyStrip (search_roof today addr obs).error ≠ [] := by
  unfold search_roof at h ⊢
  by_cases hq : normalize_address addr = []
  · rw [if_pos hq]
    exact pyStrip_ne_nil (l := ("Empty address").data) (c := 'E') (by decide) (by decide)
  · rw [if_neg hq] at h ⊢
    cases obs with
    | noInput =>
      exact pyStrip_ne_nil (l := ("EnerGov page: no input fields found").data) (c := 'E')
        (by decide) (by decide)
    | gridNotFound =>
      exact pyStrip_ne_nil (l := ("EnerGov: results grid not found").data) (c := 'E')
        (by decide) (by decide)
    | noResultRows =>
      exact pyStrip_ne_nil (l := ("EnerGov: no result rows detected").data) (c := 'E')
        (by decide) (by decide)
    | timeoutRaised =>
      exact pyStrip_ne_nil (l := ("EnerGov timeout loading/searching").data) (c := 'E')
        (by decide) (by decide)
    | unexpectedRaised msg =>
      exact pyStrip_ne_nil (l := (("EnerGov error: ").data) ++ msg) (c := 'E')
        (List.mem_append.mpr (Or.inl (by decide))) (by decide)
    | resultRows rows =>
      dsimp only at h ⊢
      rcases hr : (rows.take 140).filterMap rowRoofing with _ | ⟨e, es⟩
      · exact pyStrip_ne_nil (l := ("NO_ROOF_PERMIT_FOUND").data) (c := 'N') (by decide) (by decide)
      · rw [hr] at h
        simp at h

/-! ## C3 — pacing policy -/

/-- C3 (amended): the adaptive extra delay is 0 for a consecutive-error
count of 0 or 1, 0.6 s at 2, 1.0 s at 3 and 1.6 s at 4 or more; every
iteration sleeps base + extra + jitter; the consecutive-error counter
increments by exactly 1 on every exception and on every result carrying
a (stripped) non-empty error, and resets to 0 exactly on results whose
error is blank — with the EnerGov connector this means it resets on
detected results only, because "no roofing permit found" is reported
through the error field (`NO_ROOF_PERMIT_FOUND`) and therefore
increments the counter. -/
theorem c3_pacing_policy :
    (extraDelay 0 = 0 ∧ extraDelay 1 = 0 ∧ extraDelay 2 = 3/5 ∧ extraDelay 3 = 1) ∧
    (∀ n : Nat, 4 ≤ n → extraDelay n = 8/5) ∧
    (∀ (b : ℚ) (c : Nat) (j : ℚ), iterationDelay b c j = b + extraDelay c + j) ∧
    (∀ (prev : Nat) (addr en em : Str),
        consecutive_errors_update prev addr (.excRaised en em) = prev + 1) ∧
    (∀ (prev : Nat) (addr : Str) (today : Int) (obs : PortalObs),
        (search_roof today addr obs).roof_detected = true →
        consecutive_errors_update prev addr (.result today obs) = 0) ∧
    (∀ (prev : Nat) (addr : Str) (today : Int) (obs : PortalObs),
        (search_roof today addr obs).roof_detected = false →
        consecutive_errors_update prev addr (.result today obs) = prev + 1) := by
  refine ⟨⟨rfl, rfl, rfl, rfl⟩, ?_, fun b c j => rfl, fun prev addr en em => rfl, ?_, ?_⟩
  · intro n hn
    unfold extraDelay
    rw [if_pos hn]
  · intro prev addr today obs h
    unfold consecutive_errors_update
    simp [h]
  · intro prev addr today obs h
    unfold consecutive_errors_update
    simp only [h, Bool.not_false, if_pos]
    rw [if_neg (search_roof_not_detected_error h)]

/-- Witness for C3 at concrete inputs. -/
theorem c3_pacing_policy_witness :
    extraDelay 5 = 8/5 ∧
    consecutive_errors_update 0 sampleAddress (.result sampleToday (.resultRows [])) = 1 ∧
    consecutive_errors_update 3 sampleAddress (.result sampleToday (.resultRows [sampleRoofRow])) = 0 :=
  ⟨c3_pacing_policy.2.1 5 (by decide),
   c3_pacing_policy.2.2.2.2.2 0 sampleAddress sampleToday (.resultRows []) (by decide),
   c3_pacing_policy.2.2.2.2.1 3 sampleAddress sampleToday (.resultRows [sampleRoofRow]) (by decide)⟩

/-- C3 counterexample: a clean "no roofing permit found" lookup (rows
present, none roofing) yields error `NO_ROOF_PERMIT_FOUND`, and the
consecutive-error counter increments instead of resetting to 0. -/
theorem c3_counterexample :
    (search_roof sampleToday sampleAddress
        (.resultRows [("NOTHING MATCHES HERE").data])).roof_detected = false ∧
    (search_roof sampleToday sampleAddress
        (.resultRows [("NOTHING MATCHES HERE").data])).error = ("NO_ROOF_PERMIT_FOUND").data ∧
    consecutive_errors_update 0 sampleAddress
        (.result sampleToday (.resultRows [("NOTHING MATCHES HERE").data])) = 1 := by
  exact ⟨by decide, by decide, by decide⟩

/-! ## C6 — export cleanup -/

/-- C6 (amended): on every exit of the scan loop the guaranteed-cleanup
block emits exactly two CSV writes — all accumulated rows, and exactly
the rows with `is_20plus == "True"` — each starting with the fixed
16-column header; the running flag is cleared (with `finished_at` and
the message) BEFORE the CSV files are written, not after. -/
theorem c6_export_cleanup (rows : List LeadRowM) :
    ((run_scan_finally rows).filter isWriteEvent).length = 2 ∧
    (run_scan_finally rows).filterMap writePayload =
      [ ((("leads_all").data), writeCsvLines rows)
      , ((("leads_good_20plus").data),
         writeCsvLines (rows.filter (fun r => r.is_20plus = ("True").data))) ] ∧
    csvHeader.length = 16 ∧
    (writeCsvLines rows).head? = some csvHeader ∧
    ScanExitEvent.setRunningFalse ∈ (run_scan_finally rows).takeWhile (fun e => !isWriteEvent e) := by
  refine ⟨rfl, rfl, rfl, rfl, ?_⟩
  simp [run_scan_finally, isWriteEvent, List.takeWhile]

/-- C6 counterexample: with the claim's ordering read off the events, no
write precedes the clearing of the running flag (the claim requires both
writes to precede it). -/
theorem c6_counterexample :
    writesBeforeClear (run_scan_finally []) = false ∧
    ((run_scan_finally []).filter isWriteEvent).length = 2 := by
  exact ⟨by decide, by decide⟩

/-! ## C7 — connector dispatch -/

/-- C7 (amended): dispatch selects the EnerGov driver exactly for
`system == "energov"` (after lower/strip); EVERY other system value —
including `"arcgis"`, for which no driver is registered — fails fast at
dispatch time with `Unsupported system: ...`; a non-`http` portal URL
fails at connector construction with `Invalid EnerGov portal URL`. -/
theorem c7_connector_dispatch (j : JurisdictionM) :
    (pyStrip (j.system.map lowChar) ≠ ("energov").data →
      get_connector j = Except.error ((("Unsupported system: ").data) ++ j.system)) ∧
    (pyStrip (j.system.map lowChar) = ("energov").data →
      isPreB (("http").data) (ensure_wpb_search_url (pyStrip j.portal_url)) = true →
      get_connector j =
        Except.ok (ConnectorM.energov (ensure_wpb_search_url (pyStrip j.portal_url)))) ∧
    (pyStrip (j.system.map lowChar) = ("energov").data →
      isPreB (("http").data) (ensure_wpb_search_url (pyStrip j.portal_url)) = false →
      get_connector j = Except.error (("Invalid EnerGov portal URL").data)) := by
  refine ⟨?_, ?_, ?_⟩
  · intro h
    unfold get_connector
    rw [if_neg h]
  · intro h1 h2
    unfold get_connector post_init_energov
    simp [h1, h2]
  · intro h1 h2
    unfold get_connector post_init_energov
    simp [h1, h2]

def jUnsupported : JurisdictionM :=
  { system := ("Accela").data, portal_url := ("https://x.example.com").data }

def jEnergovOk : JurisdictionM :=
  { system := (" ENERGOV ").data, portal_url := ("https://host.example.org/app#/search?m=2&ps=10").data }

def jEnergovBadUrl : JurisdictionM :=
  { system := ("energov").data, portal_url := ("ftp://host.example.org/app").data }

/-- Witness for C7 at concrete jurisdictions. -/
theorem c7_connector_dispatch_witness :
    get_connector jUnsupported =
      Except.error ((("Unsupported system: ").data) ++ jUnsupported.system) ∧
    get_connector jEnergovOk =
      Except.ok (ConnectorM.energov (ensure_wpb_search_url (pyStrip jEnergovOk.portal_url))) ∧
    get_connector jEnergovBadUrl = Except.error (("Invalid EnerGov portal URL").data) :=
  ⟨(c7_connector_dispatch jUnsupported).1 (by decide),
   (c7_connector_dispatch jEnergovOk).2.1 (by decide) (by decide),
   (c7_connector_dispatch jEnergovBadUrl).2.2 (by decide) (by decide)⟩

/-- C7 counterexample: a jurisdiction with `system = "arcgis"` does not
dispatch to an ArcGIS driver — it raises `Unsupported system: arcgis`. -/
theorem c7_counterexample :
    get_connector { system := ("arcgis").data
                    portal_url := ("https://gis.example.gov/arcgis/rest/services/Permits/MapServer/1").data } =
      Except.error (("Unsupported system: arcgis").data) := by
  rfl

/-! ## C2 — classifier selection -/

theorem best_date_eq_getD (cutoff : Int) (b : PermitBlock) :
    best_date cutoff b = (precedence_date cutoff b).getD dtMin := by
  unfold best_date precedence_date
  cases hi : valid_date cutoff b.issued_date with
  | some d => rfl
  | none =>
    cases hf : valid_date cutoff b.finalized_date with
    | some d => rfl
    | none =>
      cases ha : valid_date cutoff b.applied_date with
      | some d => rfl
      | none => rfl

/-- C2 (amended): when at least one roofing record is present, the
classifier reports detection and selects a roofing record maximising the
effective date, where the effective date is the VALID (not later than
`now + 1 day`) issued date if present, else the valid finalized date,
else the valid applied date, else earliest-possible; the winner's valid
effective date becomes `roof_date` when it exists (else `roof_date`
stays empty); when it exists, the age is exactly
`(today − roof_date).days / 365.25` and `is_20plus` holds iff that age
is at least 20. -/
theorem c2_classifier_selection (cutoff today : Int) (blocks : List PermitBlock)
    (h : blocks.filter (fun b => block_is_roof b.type_line b.raw) ≠ []) :
    (parse_best_roof_blocks cutoff today blocks).roof_detected = true ∧
    ∃ best ∈ blocks.filter (fun b => block_is_roof b.type_line b.raw),
      (∀ b ∈ blocks.filter (fun b => block_is_roof b.type_line b.raw),
          best_date cutoff b ≤ best_date cutoff best) ∧
      (parse_best_roof_blocks cutoff today blocks).permit_no = best.permit_no ∧
      (parse_best_roof_blocks cutoff today blocks).type_line = best.type_line ∧
      (parse_best_roof_blocks cutoff today blocks).roof_date = precedence_date cutoff best ∧
      (∀ d : Int, precedence_date cutoff best = some d →
          (parse_best_roof_blocks cutoff today blocks).roof_years = PyVal.float (ageQ today d) ∧
          ((parse_best_roof_blocks cutoff today blocks).is_20plus = PyVal.pybool true ↔
            (20 : ℚ) ≤ ageQ today d)) ∧
      (precedence_date cutoff best = none →
          (parse_best_roof_blocks cutoff today blocks).roof_years = PyVal.str [] ∧
          (parse_best_roof_blocks cutoff today blocks).is_20plus = PyVal.str []) := by
  rcases hL : blocks.filter (fun b => block_is_roof b.type_line b.raw) with _ | ⟨b, bs⟩
  · exact absurd hL h
  · have hres : parse_best_roof_blocks cutoff today blocks =
      { roof_detected := true
        permit_no := (pyMaxBy (best_date cutoff) b bs).permit_no
        type_line := (pyMaxBy (best_date cutoff) b bs).type_line
        issued := valid_date cutoff (pyMaxBy (best_date cutoff) b bs).issued_date
        finalized := valid_date cutoff (pyMaxBy (best_date cutoff) b bs).finalized_date
        applied := valid_date cutoff (pyMaxBy (best_date cutoff) b bs).applied_date
        roof_date := precedence_date cutoff (pyMaxBy (best_date cutoff) b bs)
        roof_years :=
          match precedence_date cutoff (pyMaxBy (best_date cutoff) b bs) with
          | some d => PyVal.float (ageQ today d)
          | none => PyVal.str []
        is_20plus :=
          match precedence_date cutoff (pyMaxBy (best_date cutoff) b bs) with
          | some d => PyVal.pybool (decide ((20 : ℚ) ≤ ageQ today d))
          | none => PyVal.str [] } := by
      simp only [parse_best_roof_blocks, hL]
    refine ⟨by rw [hres], pyMaxBy (best_date cutoff) b bs, ?_, ?_,
      by rw [hres], by rw [hres], by rw [hres], ?_, ?_⟩
    · rw [hL]
      exact pyMaxBy_mem _ bs b
    · intro x hx
      rw [hL] at hx
      exact pyMaxBy_ge_mem _ bs b x hx
    · intro d hd
      rw [hres]
      simp [hd]
    · intro hd
      rw [hres]
      simp [hd]

/-- Witness for C2 at a concrete block list. -/
theorem c2_classifier_selection_witness :
    (parse_best_roof_blocks 20000 20000 [datedRoofBlk, fenceBlk]).roof_detected = true :=
  (c2_classifier_selection 20000 20000 [datedRoofBlk, fenceBlk] (by decide)).1

/-- C2 counterexample: a roofing record whose issued date lies past the
future cutoff and whose finalized date is old.  The claim's effective
date ("issued_date if present") is the future issued date, but the code
discards it as invalid and uses the finalized date as `roof_date`. -/
theorem c2_counterexample :
    claim_effective_date futureIssuedBlk = 30000 ∧
    futureIssuedBlk.issued_date = some 30000 ∧
    (parse_best_roof_blocks 20000 20100 [futureIssuedBlk]).roof_date = some 10000 ∧
    ¬ (parse_best_roof_blocks 20000 20100 [futureIssuedBlk]).roof_date =
        some (claim_effective_date futureIssuedBlk) := by
  exact ⟨by decide, by decide, by decide, by decide⟩

/-! ## C4 — date-less roofing records -/

/-- C4 (amended): a roofing record with no valid date sorts last
(effective date earliest-possible), so whenever some roofing record has
a valid date (after year 1), the winner has a valid date and `roof_date`
is present; but when EVERY roofing record is date-less, the classifier
still reports `roof_detected = true` for one of them, with empty
`roof_date`, `roof_years` and `is_20plus` (detected, age unknown) — it
is not dropped from the result. -/
theorem c4_dateless_roofing (cutoff today : Int) (blocks : List PermitBlock) :
    ((∃ b ∈ blocks.filter (fun b => block_is_roof b.type_line b.raw),
        ∃ d : Int, precedence_date cutoff b = some d ∧ dtMin < d) →
      ∃ d : Int, (parse_best_roof_blocks cutoff today blocks).roof_date = some d) ∧
    ((blocks.filter (fun b => block_is_roof b.type_line b.raw) ≠ [] ∧
      ∀ b ∈ blocks.filter (fun b => block_is_roof b.type_line b.raw),
        precedence_date cutoff b = none) →
      (parse_best_roof_blocks cutoff today blocks).roof_detected = true ∧
      (parse_best_roof_blocks cutoff today blocks).roof_date = none ∧
      (parse_best_roof_blocks cutoff today blocks).roof_years = PyVal.str [] ∧
      (parse_best_roof_blocks cutoff today blocks).is_20plus = PyVal.str []) := by
  rcases hL : blocks.filter (fun b => block_is_roof b.type_line b.raw) with _ | ⟨b, bs⟩
  · constructor
    · rintro ⟨b0, hb0, -⟩
      rw [hL] at hb0
      simp at hb0
    · rintro ⟨hne, -⟩
      exact absurd hL hne
  · have hroofdate : (parse_best_roof_blocks cutoff today blocks).roof_date =
        precedence_date cutoff (pyMaxBy (best_date cutoff) b bs) := by
      simp only [parse_best_roof_blocks, hL]
    constructor
    · rintro ⟨b0, hb0, d, hd, hdmin⟩
      rw [hL] at hb0
      rcases hp : precedence_date cutoff (pyMaxBy (best_date cutoff) b bs) with _ | d'
      · exfalso
        have hkey := pyMaxBy_ge_mem (best_date cutoff) bs b b0 hb0
        rw [best_date_eq_getD cutoff b0, hd] at hkey
        rw [best_date_eq_getD cutoff (pyMaxBy (best_date cutoff) b bs), hp] at hkey
        simp only [Option.getD_some, Option.getD_none] at hkey
        omega
      · exact ⟨d', by rw [hroofdate, hp]⟩
    · rintro ⟨-, hall⟩
      have hmem : pyMaxBy (best_date cutoff) b bs ∈
          blocks.filter (fun b => block_is_roof b.type_line b.raw) := by
        rw [hL]
        exact pyMaxBy_mem (best_date cutoff) bs b
      have hp := hall _ hmem
      have hres : parse_best_roof_blocks cutoff today blocks =
          { roof_detected := true
            permit_no := (pyMaxBy (best_date cutoff) b bs).permit_no
            type_line := (pyMaxBy (best_date cutoff) b bs).type_line
            issued := valid_date cutoff (pyMaxBy (best_date cutoff) b bs).issued_date
            finalized := valid_date cutoff (pyMaxBy (best_date cutoff) b bs).finalized_date
            applied := valid_date cutoff (pyMaxBy (best_date cutoff) b bs).applied_date
            roof_date := none
            roof_years := PyVal.str []
            is_20plus := PyVal.str [] } := by
        simp only [parse_best_roof_blocks, hL, hp]
      rw [hres]
      exact ⟨rfl, rfl, rfl, rfl⟩

/-- Witness for C4 at concrete block lists. -/
theorem c4_dateless_roofing_witness :
    (∃ d : Int, (parse_best_roof_blocks 20000 20000 [datedRoofBlk, datelessRoofBlk]).roof_date = some d) ∧
    ((parse_best_roof_blocks 20000 20000 [datelessRoofBlk]).roof_detected = true ∧
     (parse_best_roof_blocks 20000 20000 [datelessRoofBlk]).roof_date = none ∧
     (parse_best_roof_blocks 20000 20000 [datelessRoofBlk]).roof_years = PyVal.str [] ∧
     (parse_best_roof_blocks 20000 20000 [datelessRoofBlk]).is_20plus = PyVal.str []) :=
  ⟨(c4_dateless_roofing 20000 20000 [datedRoofBlk, datelessRoofBlk]).1
      ⟨datedRoofBlk, by decide, 10957, by decide, by decide⟩,
   (c4_dateless_roofing 20000 20000 [datelessRoofBlk]).2 ⟨by decide, by decide⟩⟩

/-- C4 counterexample: with a single date-less roofing record the
classifier still reports it as the detected roofing permit
(`roof_detected = true` with its permit number), while the claim says no
such record may be reported. -/
theorem c4_counterexample :
    (parse_best_roof_blocks 20000 20000 [datelessRoofBlk]).roof_detected = true ∧
    (parse_best_roof_blocks 20000 20000 [datelessRoofBlk]).permit_no = ("R9").data ∧
    (parse_best_roof_blocks 20000 20000 [datelessRoofBlk]).roof_date = none := by
  exact ⟨by decide, by decide, by decide⟩

/-! ## C5 — result contract -/

theorem format1f_oneDec (q : ℚ) :
    ∃ pre dch, format1f q = pre ++ ['.', dch] ∧ dch.isDigit = true := by
  have hm : (round1dec q).natAbs % 10 < 10 := Nat.mod_lt _ (by omega)
  refine ⟨(if round1dec q < 0 then ['-'] else []) ++ natToStr ((round1dec q).natAbs / 10),
    Nat.digitChar ((round1dec q).natAbs % 10), ?_, digitChar_isDigit hm⟩
  simp only [format1f]
  rw [natToStr_lt10 hm]

/-- C5 (amended): the EnerGov CONNECTOR (connectors/energov.py) honours
the contract: whenever a roofing permit is detected, `roof_years` is a
string ending in a dot and exactly one digit (one-decimal format) and
`is_20plus` is the literal string `"True"` or `"False"`.  The
EnerGovScanner driver (scanner.py) does not: it emits a native float and
native bool (see the counterexample); `run_scan` converts those to
strings only when building Lead Rows. -/
theorem search_roof_rows_cons_eq (today : Int) (addr : Str) (rows : List Str)
    (e : PyDate × Str × Str) (es : List (PyDate × Str × Str))
    (hq : ¬ normalize_address addr = [])
    (hr : (rows.take 140).filterMap rowRoofing = e :: es) :
    search_roof today addr (.resultRows rows) =
      { roof_detected := true
        query_used := normalize_address addr
        permit_no := (pyMaxBy (fun t => dateOrd t.1) e es).2.1
        type_line := (pyMaxBy (fun t => dateOrd t.1) e es).2.2
        roof_date := mdyFormat (pyMaxBy (fun t => dateOrd t.1) e es).1
        issued := []
        finalized := []
        applied := []
        roof_years :=
          PyVal.str (format1f (ageQ today (pyDateDays (pyMaxBy (fun t => dateOrd t.1) e es).1)))
        is_20plus :=
          PyVal.str
            (if (20 : ℚ) ≤ ageQ today (pyDateDays (pyMaxBy (fun t => dateOrd t.1) e es).1) then
              ("True").data
            else ("False").data)
        error := [] } := by
  unfold search_roof
  rw [if_neg hq]
  dsimp only
  rw [hr]

theorem c5_connector_contract (today : Int) (addr : Str) (obs : PortalObs)
    (h : (search_roof today addr obs).roof_detected = true) :
    (∃ s, (search_roof today addr obs).roof_years = PyVal.str s ∧
        ∃ pre dch, s = pre ++ ['.', dch] ∧ dch.isDigit = true) ∧
    ((search_roof today addr obs).is_20plus = PyVal.str (("True").data) ∨
     (search_roof today addr obs).is_20plus = PyVal.str (("False").data)) := by
  by_cases hq : normalize_address addr = []
  · exfalso
    unfold search_roof at h
    rw [if_pos hq] at h
    simp at h
  · cases obs with
    | noInput => exfalso; unfold search_roof at h; rw [if_neg hq] at h; simp at h
    | gridNotFound => exfalso; unfold search_roof at h; rw [if_neg hq] at h; simp at h
    | noResultRows => exfalso; unfold search_roof at h; rw [if_neg hq] at h; simp at h
    | timeoutRaised => exfalso; unfold search_roof at h; rw [if_neg hq] at h; simp at h
    | unexpectedRaised msg => exfalso; unfold search_roof at h; rw [if_neg hq] at h; simp at h
    | resultRows rows =>
      rcases hr : (rows.take 140).filterMap rowRoofing with _ | ⟨e, es⟩
      · exfalso
        unfold search_roof at h
        rw [if_neg hq] at h
        dsimp only at h
        rw [hr] at h
        simp at h
      · rw [search_roof_rows_cons_eq today addr rows e es hq hr]
        constructor
        · exact ⟨_, rfl, format1f_oneDec _⟩
        · by_cases h20 :
            (20 : ℚ) ≤ ageQ today (pyDateDays (pyMaxBy (fun t => dateOrd t.1) e es).1)
          · left
            simp [h20]
          · right
            simp [h20]

set_option maxRecDepth 2000 in
/-- Witness for C5 at a concrete detected lookup. -/
theorem c5_connector_contract_witness :
    (∃ s, (search_roof sampleToday sampleAddress (.resultRows [sampleRoofRow])).roof_years =
            PyVal.str s ∧
        ∃ pre dch, s = pre ++ ['.', dch] ∧ dch.isDigit = true) ∧
    ((search_roof sampleToday sampleAddress (.resultRows [sampleRoofRow])).is_20plus =
        PyVal.str (("True").data) ∨
     (search_roof sampleToday sampleAddress (.resultRows [sampleRoofRow])).is_20plus =
        PyVal.str (("False").data)) :=
  c5_connector_contract sampleToday sampleAddress (.resultRows [sampleRoofRow]) (by decide)

/-- C5 counterexample: the EnerGovScanner classifier emits a native
Python bool for `is_20plus` and a native float for `roof_years` on a
detected roofing permit — not the literal strings of the contract. -/
theorem c5_counterexample :
    (parse_best_roof_blocks 20000 30000 [datedRoofBlk]).roof_detected = true ∧
    (parse_best_roof_blocks 20000 30000 [datedRoofBlk]).is_20plus = PyVal.pybool true ∧
    PyVal.pybool true ≠ PyVal.str (("True").data) ∧
    PyVal.pybool true ≠ PyVal.str (("False").data) ∧
    (parse_best_roof_blocks 20000 30000 [datedRoofBlk]).roof_years =
      PyVal.float (ageQ 30000 10957) ∧
    PyVal.float (ageQ 30000 10957) ≠ PyVal.str (format1f (ageQ 30000 10957)) := by
  exact ⟨by decide, by decide, by decide, by decide, by decide, by decide⟩

/-! ## C1 — Lead Row status invariant -/

/-- The two concrete row shapes `run_scan` builds from a connector
result, split on `roof_detected`. -/
theorem lead_row_of_result_eq (addr jname owner mailing phone secs : Str)
    (today : Int) (obs : PortalObs) :
    lead_row_of addr jname owner mailing phone secs (.result today obs) =
      (if (search_roof today addr obs).roof_detected = false then
        { address := addr, jurisdiction := jname, owner := owner
          mailing_address := mailing, phone := phone
          query_used := (search_roof today addr obs).query_used
          status :=
            if pyStrip (search_roof today addr obs).error = [] then
              ("NO_ROOF_PERMIT_FOUND").data
            else ("ERROR: ").data ++ pyStrip (search_roof today addr obs).error
          seconds := secs }
      else
        { address := addr, jurisdiction := jname, owner := owner
          mailing_address := mailing, phone := phone
          query_used := (search_roof today addr obs).query_used
          permit_no := (search_roof today addr obs).permit_no
          type_line := (search_roof today addr obs).type_line
          roof_date_used := (search_roof today addr obs).roof_date
          issued := (search_roof today addr obs).issued
          finalized := (search_roof today addr obs).finalized
          applied := (search_roof today addr obs).applied
          roof_years := yrsStrOf (search_roof today addr obs).roof_years
          is_20plus := pyValStr (search_roof today addr obs).is_20plus
          status := ("OK").data
          seconds := secs }) := by
  simp only [lead_row_of]
  cases hd : (search_roof today addr obs).roof_detected
  · rfl
  · rfl

/-- C1: for every Lead Row `run_scan` appends — connector result or
caught exception — `status == "OK"` implies a non-empty
`roof_date_used`, and any other status implies all permit fields
(permit_no, type_line, roof_date_used, issued, finalized, applied,
roof_years, is_20plus) stay empty: no qualifying permit was confirmed. -/
theorem c1_lead_row_invariant (addr jname owner mailing phone secs : Str) (out : AddrOutcome) :
    ((lead_row_of addr jname owner mailing phone secs out).status = ("OK").data →
      (lead_row_of addr jname owner mailing phone secs out).roof_date_used ≠ []) ∧
    ((lead_row_of addr jname owner mailing phone secs out).status ≠ ("OK").data →
      (lead_row_of addr jname owner mailing phone secs out).permit_no = [] ∧
      (lead_row_of addr jname owner mailing phone secs out).type_line = [] ∧
      (lead_row_of addr jname owner mailing phone secs out).roof_date_used = [] ∧
      (lead_row_of addr jname owner mailing phone secs out).issued = [] ∧
      (lead_row_of addr jname owner mailing phone secs out).finalized = [] ∧
      (lead_row_of addr jname owner mailing phone secs out).applied = [] ∧
      (lead_row_of addr jname owner mailing phone secs out).roof_years = [] ∧
      (lead_row_of addr jname owner mailing phone secs out).is_20plus = []) := by
  cases out with
  | excRaised en em =>
    constructor
    · intro hst
      exfalso
      simp only [lead_row_of, List.cons_append] at hst
      injection hst with h1 _
      exact absurd h1 (by decide)
    · intro _
      exact ⟨rfl, rfl, rfl, rfl, rfl, rfl, rfl, rfl⟩
  | result today obs =>
    rw [lead_row_of_result_eq]
    cases hd : (search_roof today addr obs).roof_detected
    · rw [if_pos rfl]
      dsimp only
      constructor
      · intro hst
        exfalso
        by_cases he : pyStrip (search_roof today addr obs).error = []
        · rw [if_pos he] at hst
          exact absurd hst (by decide)
        · rw [if_neg he] at hst
          rw [List.cons_append] at hst
          injection hst with h1 _
          exact absurd h1 (by decide)
      · intro _
        exact ⟨rfl, rfl, rfl, rfl, rfl, rfl, rfl, rfl⟩
    · rw [if_neg (by decide)]
      dsimp only
      constructor
      · intro _
        exact search_roof_detected_roof_date hd
      · intro hst
        exact absurd rfl hst

/-- Witness for C1: an OK row has a roof date; an errored row keeps all
permit fields empty. -/
theorem c1_lead_row_invariant_witness :
    (lead_row_of sampleAddress (("WPB").data) [] [] [] (("1.0").data)
        (.result sampleToday (.resultRows [sampleRoofRow]))).roof_date_used ≠ [] ∧
    (lead_row_of sampleAddress (("WPB").data) [] [] [] (("1.0").data)
        (.result sampleToday .noInput)).roof_date_used = [] :=
  ⟨(c1_lead_row_invariant sampleAddress (("WPB").data) [] [] [] (("1.0").data)
      (.result sampleToday (.resultRows [sampleRoofRow]))).1 (by decide),
   ((c1_lead_row_invariant sampleAddress (("WPB").data) [] [] [] (("1.0").data)
      (.result sampleToday .noInput)).2 (by decide)).2.2.1⟩

/-! ## C9 — zero markers -/

theorem hasSubB_nil_left (s : Str) : hasSubB [] s = true := by
  cases s with
  | nil => rfl
  | cons c rest => simp [hasSubB, isPreB]

theorem replaceCRLF_cons_of_ne (c : Char) (rest : Str)
    (h : ∀ r2 : Str, c = '\r' → rest = '\n' :: r2 → False) :
    replaceCRLF (c :: rest) = c :: replaceCRLF rest := by
  rw [replaceCRLF.eq_def]
  split
  · rename_i r2 heq
    obtain ⟨hc, hrest⟩ := List.cons_eq_cons.mp heq
    exact (h r2 hc hrest).elim
  · rename_i c2 rest2 heq
    obtain ⟨hc2, hrest2⟩ := List.cons_eq_cons.mp heq
    rw [hc2, hrest2]
  · rename_i heq
    exact absurd heq (by simp)

theorem map_lowChar_replaceCRLF (l : Str) :
    (replaceCRLF l).map lowChar = replaceCRLF (l.map lowChar) := by
  induction l using replaceCRLF.induct with
  | case1 rest ih =>
    have hr : lowChar '\r' = '\r' := by decide
    have hn : lowChar '\n' = '\n' := by decide
    simp only [replaceCRLF, List.map_cons, hr, hn, ih]
  | case2 c rest h ih =>
    have h2 : ∀ r2 : Str, lowChar c = '\r' → rest.map lowChar = '\n' :: r2 → False := by
      intro r2 hc hrest
      have hc' : c = '\r' := (lowChar_eq_low_iff (by decide)).mp hc
      cases rest with
      | nil => simp at hrest
      | cons r0 rrest =>
        rw [List.map_cons] at hrest
        obtain ⟨h0, h1⟩ := List.cons_eq_cons.mp hrest
        exact h rrest hc' (by rw [(lowChar_eq_low_iff (by decide)).mp h0])
    rw [replaceCRLF_cons_of_ne c rest h, List.map_cons, List.map_cons,
      replaceCRLF_cons_of_ne (lowChar c) (rest.map lowChar) h2, ih]
  | case3 => rfl

theorem isPreB_replaceCRLF : ∀ {s : Str} (p : Str),
    (∀ ch ∈ p, ch ≠ '\r' ∧ ch ≠ '\n') →
    isPreB p (replaceCRLF s) = true → isPreB p s = true := by
  intro s
  induction s using replaceCRLF.induct with
  | case1 rest ih =>
    intro p hp hpre
    cases p with
    | nil => rfl
    | cons a as =>
      simp only [replaceCRLF] at hpre
      simp only [isPreB, Bool.and_eq_true, decide_eq_true_eq] at hpre
      exact absurd hpre.1 (hp a (List.mem_cons_self a as)).2
  | case2 c rest h ih =>
    intro p hp hpre
    rw [replaceCRLF_cons_of_ne c rest h] at hpre
    cases p with
    | nil => rfl
    | cons a as =>
      simp only [isPreB, Bool.and_eq_true, decide_eq_true_eq] at hpre ⊢
      exact ⟨hpre.1, ih as (fun ch hch => hp ch (List.mem_cons_of_mem a hch)) hpre.2⟩
  | case3 =>
    intro p hp hpre
    exact hpre

theorem hasSubB_replaceCRLF : ∀ {s : Str} (p : Str),
    (∀ ch ∈ p, ch ≠ '\r' ∧ ch ≠ '\n') →
    hasSubB p (replaceCRLF s) = true → hasSubB p s = true := by
  intro s
  induction s using replaceCRLF.induct with
  | case1 rest ih =>
    intro p hp hsub
    simp only [replaceCRLF] at hsub
    simp only [hasSubB, Bool.or_eq_true] at hsub
    rcases hsub with hpre | hsub
    · cases p with
      | nil => exact hasSubB_nil_left _
      | cons a as =>
        simp only [isPreB, Bool.and_eq_true, decide_eq_true_eq] at hpre
        exact absurd hpre.1 (hp a (List.mem_cons_self a as)).2
    · exact hasSubB_cons_of '\r' (hasSubB_cons_of '\n' (ih p hp hsub))
  | case2 c rest h ih =>
    intro p hp hsub
    rw [replaceCRLF_cons_of_ne c rest h] at hsub
    simp only [hasSubB, Bool.or_eq_true] at hsub ⊢
    rcases hsub with hpre | hsub
    · left
      cases p with
      | nil => rfl
      | cons a as =>
        simp only [isPreB, Bool.and_eq_true, decide_eq_true_eq] at hpre ⊢
        exact ⟨hpre.1, isPreB_replaceCRLF as
          (fun ch hch => hp ch (List.mem_cons_of_mem a hch)) hpre.2⟩
    · right
      exact ih p hp hsub
  | case3 =>
    intro p hp hsub
    exact hsub

theorem markerHits_nonempty_hasSub {txt : Str} (h : markerHits txt ≠ []) :
    hasSubB (("permit number").data) (txt.map lowChar) = true := by
  unfold markerHits at h
  rcases hx : (List.range txt.length).filter
      (fun i => isPreB (("permit number").data) ((txt.drop i).map lowChar)) with _ | ⟨i, is⟩
  · exact absurd hx h
  · have hmem : i ∈ (List.range txt.length).filter
        (fun i => isPreB (("permit number").data) ((txt.drop i).map lowChar)) := by
      rw [hx]
      exact List.mem_cons_self i is
    have hpred := (List.mem_filter.mp hmem).2
    have hdrop : ((txt.drop i).map lowChar) = (txt.map lowChar).drop i := by
      rw [List.map_drop]
    rw [hdrop] at hpred
    exact hasSubB_of_pre_drop hpred

/-- C9: a page text with zero (case-insensitive) occurrences of the
`Permit Number` marker — including the empty string — yields an empty
permit-record sequence from the extractor, and the classifier then
reports "not detected"; both functions are total, so no exception
arises on this path. -/
theorem c9_no_marker (cutoff today : Int) (pageText : Str)
    (h : hasSubB (("permit number").data) (pageText.map lowChar) = false) :
    parse_permit_blocks_from_text pageText = [] ∧
    (parse_best_roof cutoff today pageText).roof_detected = false := by
  have hblocks : parse_permit_blocks_from_text pageText = [] := by
    unfold parse_permit_blocks_from_text
    by_cases hpt : pageText = []
    · rw [if_pos hpt]
    · rw [if_neg hpt]
      dsimp only
      have hhits : markerHits (replaceCRLF pageText) = [] := by
        by_contra hne
        have h1 := markerHits_nonempty_hasSub hne
        rw [map_lowChar_replaceCRLF] at h1
        have h2 := hasSubB_replaceCRLF (("permit number").data) (by decide) h1
        rw [h2] at h
        exact Bool.true_eq_false.mp h
      rw [if_pos hhits]
  refine ⟨hblocks, ?_⟩
  unfold parse_best_roof
  rw [hblocks]
  rfl

/-- Witness for C9 on a concrete marker-free page text. -/
theorem c9_no_marker_witness :
    parse_permit_blocks_from_text (("No results found.").data) = [] ∧
    (parse_best_roof 20000 20000 (("No results found.").data)).roof_detected = false :=
  c9_no_marker 20000 20000 (("No results found.").data) (by decide)

/-! ## C10 — WPB search-URL normalizer -/

theorem splitFrag_no_hash : ∀ u : Str, ('#' : Char) ∉ (splitFrag u).1 := by
  intro u
  induction u with
  | nil => simp [splitFrag]
  | cons c rest ih =>
    by_cases hc : c = '#'
    · simp [splitFrag, hc]
    · simp only [splitFrag, if_neg hc, List.mem_cons]
      rintro (h1 | h1)
      · exact hc h1.symm
      · exact ih h1

theorem splitFrag_head {u : Str} {c : Char} (hc : u.head? = some c)
    (hne : (splitFrag u).1 ≠ []) : ((splitFrag u).1).head? = some c := by
  cases u with
  | nil => simp at hc
  | cons a rest =>
    by_cases ha : a = '#'
    · exfalso
      apply hne
      simp [splitFrag, ha]
    · simp only [splitFrag, if_neg ha, List.head?_cons]
      simpa using hc

theorem splitFrag_mk : ∀ (b : Str) (f : Str), ('#' : Char) ∉ b →
    splitFrag (b ++ '#' :: f) = (b, some f) := by
  intro b
  induction b with
  | nil =>
    intro f _
    simp [splitFrag]
  | cons c b' ih =>
    intro f hb
    have hc : c ≠ '#' := by
      intro h
      exact hb (h ▸ List.mem_cons_self c b')
    rw [List.cons_append]
    simp only [splitFrag, if_neg hc]
    rw [ih f (fun h => hb (List.mem_cons_of_mem c h))]

theorem pyStrip_eq_self_of {l : Str}
    (hhead : ∀ c, l.head? = some c → isWsChar c = false)
    (hlast : ∀ c, l.getLast? = some c → isWsChar c = false) : pyStrip l = l := by
  unfold pyStrip
  rw [pyLStrip_eq_self hhead, pyRStrip_eq_self hlast]

/-- C10 (amended): `_ensure_wpb_search_url` is idempotent on every
input; and for every input that still has content after stripping
whitespace, the output's fragment contains `search?m=` up to ASCII case
(the branch that keeps the URL only checks the lower-cased fragment). -/
theorem c10_ensure_wpb (url : Str) :
    ensure_wpb_search_url (ensure_wpb_search_url url) = ensure_wpb_search_url url ∧
    (pyStrip url ≠ [] →
      hasSubB (("search?m=").data)
        ((((splitFrag (ensure_wpb_search_url url)).2).getD []).map lowChar) = true) := by
  by_cases h0 : pyStrip url = []
  · have h1 : ensure_wpb_search_url url = [] := by
      unfold ensure_wpb_search_url
      rw [if_pos h0]
      exact h0
    constructor
    · rw [h1]
      rfl
    · intro hne
      exact absurd h0 hne
  · by_cases hc : hasSubB (("search?m=").data)
        ((((splitFrag (pyStrip url)).2).getD []).map lowChar) = true
    · have h1 : ensure_wpb_search_url url = pyStrip url := by
        unfold ensure_wpb_search_url
        rw [if_neg h0]
        dsimp only
        rw [if_pos hc]
      constructor
      · rw [h1]
        unfold ensure_wpb_search_url
        rw [pyStrip_idem url, if_neg h0]
        dsimp only
        rw [if_pos hc]
      · intro _
        rw [h1]
        exact hc
    · have h1 : ensure_wpb_search_url url =
          (splitFrag (pyStrip url)).1 ++ '#' :: wpbFragment := by
        unfold ensure_wpb_search_url
        rw [if_neg h0]
        dsimp only
        rw [if_neg hc]
      have hsplit : splitFrag ((splitFrag (pyStrip url)).1 ++ '#' :: wpbFragment) =
          ((splitFrag (pyStrip url)).1, some wpbFragment) :=
        splitFrag_mk _ _ (splitFrag_no_hash (pyStrip url))
      have hstrip : pyStrip ((splitFrag (pyStrip url)).1 ++ '#' :: wpbFragment) =
          (splitFrag (pyStrip url)).1 ++ '#' :: wpbFragment := by
        apply pyStrip_eq_self_of
        · intro c hcc
          rcases hb : (splitFrag (pyStrip url)).1 with _ | ⟨b0, b'⟩
          · rw [hb] at hcc
            simp only [List.nil_append, List.head?_cons, Option.some.injEq] at hcc
            rw [← hcc]
            decide
          · rw [hb] at hcc
            rw [List.cons_append, List.head?_cons] at hcc
            have hb0 : ((splitFrag (pyStrip url)).1).head? = some b0 := by
              rw [hb]
              rfl
            rcases hu : (pyStrip url).head? with _ | u0
            · exfalso
              have : pyStrip url = [] := by
                cases hpu : pyStrip url
                · rfl
                · rw [hpu] at hu
                  simp at hu
              exact h0 this
            · have := splitFrag_head hu (by rw [hb]; simp)
              rw [hb0] at this
              have hw := pyStrip_head_not_ws (l := url) hu
              rw [Option.some.injEq] at hcc this
              rw [← hcc, this]
              exact hw
        · intro c hcc
          rw [List.getLast?_append_cons] at hcc
          have : (('#' : Char) :: wpbFragment).getLast? = some 'e' := by decide
          rw [this, Option.some.injEq] at hcc
          rw [← hcc]
          decide
      have hne2 : (splitFrag (pyStrip url)).1 ++ '#' :: wpbFragment ≠ [] := by
        intro h
        rcases List.append_eq_nil.mp h with ⟨-, h2⟩
        simp at h2
      have h9 : hasSubB (("search?m=").data) (wpbFragment.map lowChar) = true := by decide
      constructor
      · rw [h1]
        unfold ensure_wpb_search_url
        rw [hstrip, if_neg hne2]
        dsimp only
        rw [hsplit]
        dsimp only
        split <;> rfl
      · intro _
        rw [h1, hsplit]
        exact h9

/-- Witness for C10 at a concrete URL. -/
theorem c10_ensure_wpb_witness :
    hasSubB (("search?m=").data)
      ((((splitFrag (ensure_wpb_search_url
          (("https://host.example.org/apps/selfservice#/home").data))).2).getD
        []).map lowChar) = true :=
  (c10_ensure_wpb (("https://host.example.org/apps/selfservice#/home").data)).2 (by decide)

/-- C10 counterexample: a non-empty, whitespace-only input URL
normalizes to the empty string, whose fragment does not contain
`search?m=`. -/
theorem c10_counterexample :
    ("   ").data ≠ [] ∧
    ensure_wpb_search_url (("   ").data) = [] ∧
    hasSubB (("search?m=").data)
      ((((splitFrag (ensure_wpb_search_url (("   ").data))).2).getD []).map lowChar) = false := by
  exact ⟨by decide, by decide, by decide⟩

/-! ## C8 — address normalizer: character facts -/

theorem digit_bounds {c : Char} (h : c.isDigit = true) : 48 ≤ c.toNat ∧ c.toNat ≤ 57 := by
  simpa [Char.isDigit, Bool.and_eq_true, decide_eq_true_eq] using h

theorem digit_not_ws {c : Char} (h : c.isDigit = true) : isWsChar c = false := by
  have hb := digit_bounds h
  cases hw : isWsChar c
  · rfl
  · exfalso
    simp only [isWsChar, Bool.or_eq_true, decide_eq_true_eq] at hw
    rcases hw with ((((h1 | h1) | h1) | h1) | h1) | h1 <;>
      (subst h1; exact absurd hb (by decide))

theorem digit_ne {c t : Char} (h : c.isDigit = true)
    (ht : t.toNat < 48 ∨ 57 < t.toNat) : c ≠ t := by
  intro he
  have hb := digit_bounds h
  have := congrArg Char.toNat he
  omega

/-! ## C8 — collapse / strip machinery -/

theorem mem_collapseWs : ∀ {l : Str} {c : Char}, c ∈ collapseWs l → c ∈ l ∨ c = ' ' := by
  intro l
  induction l using collapseWs.induct with
  | case1 =>
    intro c hc
    simp [collapseWs] at hc
  | case2 c0 hws =>
    intro c hc
    simp only [collapseWs, if_pos hws] at hc
    exact Or.inr (by simpa using hc)
  | case3 c0 hnws =>
    intro c hc
    simp only [collapseWs, if_neg hnws] at hc
    exact Or.inl hc
  | case4 c1 c2 rest hg ih =>
    intro c hc
    simp only [collapseWs, if_pos hg] at hc
    rcases ih hc with h1 | h1
    · exact Or.inl (List.mem_cons_of_mem c1 h1)
    · exact Or.inr h1
  | case5 c1 c2 rest hng ih =>
    intro c hc
    simp only [collapseWs, if_neg hng] at hc
    rcases List.mem_cons.mp hc with h1 | h1
    · by_cases hw : isWsChar c1
      · rw [if_pos hw] at h1
        exact Or.inr h1
      · rw [if_neg hw] at h1
        exact Or.inl (h1 ▸ List.mem_cons_self c1 _)
    · rcases ih h1 with h2 | h2
      · exact Or.inl (List.mem_cons_of_mem c1 h2)
      · exact Or.inr h2

theorem pyStrip_all_ws {l : Str} (h : ∀ c ∈ l, isWsChar c = true) : pyStrip l = [] := by
  unfold pyStrip pyLStrip
  rw [List.dropWhile_eq_nil_iff.mpr h]
  rfl

/-- First half of C8's "garbage" case: commas-and-whitespace input
normalizes to the empty string. -/
theorem normalize_address_junk (raw : Str)
    (h : ∀ c ∈ raw, c = ',' ∨ isWsChar c = true) : normalize_address raw = [] := by
  have hclean : clean_spaces raw = [] := by
    unfold clean_spaces
    apply pyStrip_all_ws
    intro c hc
    rcases mem_collapseWs hc with h1 | h1
    · rcases List.mem_map.mp h1 with ⟨c0, hc0, rfl⟩
      by_cases hcc : c0 = ','
      · rw [if_pos hcc]
        decide
      · rw [if_neg hcc]
        rcases h c0 hc0 with h2 | h2
        · exact absurd h2 hcc
        · exact h2
    · rw [h1]
      decide
  unfold normalize_address
  rw [hclean]
  rfl

theorem dropWhile_eq_self_of_head {p : Char → Bool} {l : Str}
    (h : ∀ c, l.head? = some c → p c = false) : l.dropWhile p = l := by
  cases l with
  | nil => rfl
  | cons a as =>
    rw [List.dropWhile_cons, if_neg]
    rw [h a rfl]
    simp

theorem dropWhile_append_of_head (p : Char → Bool) :
    ∀ (a b : Str), (∀ c, b.head? = some c → p c = false) →
    (a ++ b).dropWhile p = a.dropWhile p ++ b := by
  intro a
  induction a with
  | nil =>
    intro b hb
    simp [dropWhile_eq_self_of_head hb]
  | cons x xs ih =>
    intro b hb
    rw [List.cons_append, List.dropWhile_cons, List.dropWhile_cons]
    by_cases hx : p x
    · simp only [hx, if_pos]
      exact ih b hb
    · simp only [hx, Bool.false_eq_true, if_neg, reduceIte, List.cons_append]

theorem mem_of_getLast? {l : Str} {c : Char} (h : l.getLast? = some c) : c ∈ l := by
  obtain ⟨hne, heq⟩ := List.mem_getLast?_eq_getLast (by rw [h]; rfl)
  rw [heq]
  exact List.getLast_mem hne

theorem pyRStrip_keeps (d t : Str) (hd : ∀ c ∈ d, isWsChar c = false) :
    ∃ r, pyRStrip (d ++ t) = d ++ r := by
  rcases hdn : d with _ | ⟨d0, d'⟩
  · exact ⟨pyRStrip t, by simp⟩
  · rw [← hdn]
    have hdne : d ≠ [] := by rw [hdn]; simp
    unfold pyRStrip
    rw [List.reverse_append]
    rw [dropWhile_append_of_head _ _ _ ?_]
    · exact ⟨(t.reverse.dropWhile isWsChar).reverse, by rw [List.reverse_append, List.reverse_reverse]⟩
    · intro c hc
      rw [List.head?_reverse] at hc
      exact hd c (mem_of_getLast? hc)

theorem pyStrip_keeps (d t : Str) (hne : d ≠ []) (hd : ∀ c ∈ d, isWsChar c = false) :
    ∃ r, pyStrip (d ++ t) = d ++ r := by
  unfold pyStrip
  rw [show pyLStrip (d ++ t) = d ++ t from ?_]
  · exact pyRStrip_keeps d t hd
  · apply dropWhile_eq_self_of_head
    intro c hc
    rcases hdn : d with _ | ⟨d0, d'⟩
    · exact absurd hdn hne
    · rw [hdn, List.cons_append, List.head?_cons, Option.some.injEq] at hc
      exact hc ▸ hd d0 (hdn ▸ List.mem_cons_self d0 d')

theorem collapseWs_append_nonws : ∀ (d t : Str), (∀ c ∈ d, isWsChar c = false) →
    collapseWs (d ++ t) = d ++ collapseWs t := by
  intro d
  induction d with
  | nil => intro t _; rfl
  | cons c d' ih =>
    intro t hd
    have hc : isWsChar c = false := hd c (List.mem_cons_self c d')
    rw [List.cons_append]
    rcases hdt : d' ++ t with _ | ⟨x, xs⟩
    · rcases List.append_eq_nil.mp hdt with ⟨h1, h2⟩
      subst h1
      subst h2
      simp [collapseWs, hc]
    · have hstep : collapseWs (c :: x :: xs) = c :: collapseWs (x :: xs) := by
        simp only [collapseWs]
        rw [if_neg (by simp [hc]), if_neg (by simp [hc])]
      rw [hstep, ← hdt, ih t (fun c2 h2 => hd c2 (List.mem_cons_of_mem c h2))]
      exact (List.cons_append c d' (collapseWs t)).symm

theorem map_eq_self_of {f : Char → Char} {l : Str} (h : ∀ c ∈ l, f c = c) : l.map f = l := by
  induction l with
  | nil => rfl
  | cons c rest ih =>
    rw [List.map_cons, h c (List.mem_cons_self c rest),
      ih (fun x hx => h x (List.mem_cons_of_mem c hx))]

/-! ## C8 — the two regex cuts keep an all-digit prefix -/

theorem flMatchHere_eq_false {prev : Option Char} {c : Char} (xs : Str) (hc : c ≠ 'F') :
    flMatchHere prev (c :: xs) = false := by
  rw [flMatchHere.eq_def]
  split
  · rename_i heq
    exact absurd (List.cons_eq_cons.mp heq).1 hc
  · rfl

theorem cutFL_digit_pre : ∀ (d : Str) (prev : Option Char) (t : Str),
    (∀ c ∈ d, c.isDigit = true) → ∃ r, cutFL prev (d ++ t) = d ++ r := by
  intro d
  induction d with
  | nil => intro prev t _; exact ⟨cutFL prev t, rfl⟩
  | cons c d' ih =>
    intro prev t hd
    have hcF : c ≠ 'F' := digit_ne (hd c (List.mem_cons_self c d')) (Or.inr (by decide))
    have hstep : cutFL prev (c :: (d' ++ t)) = c :: cutFL (some c) (d' ++ t) := by
      simp only [cutFL]
      rw [if_neg (by rw [flMatchHere_eq_false (d' ++ t) hcF]; simp)]
    obtain ⟨r, hr⟩ := ih (some c) t (fun x hx => hd x (List.mem_cons_of_mem c hx))
    exact ⟨r, by rw [List.cons_append, hstep, hr, List.cons_append]⟩

theorem unitMarkerAt_digit {prev : Option Char} {c : Char} (xs : Str)
    (h : c.isDigit = true) : unitMarkerAt prev (c :: xs) = false := by
  have hA : ('A' : Char) ≠ c := Ne.symm (digit_ne h (Or.inr (by decide)) : c ≠ 'A')
  have hU : ('U' : Char) ≠ c := Ne.symm (digit_ne h (Or.inr (by decide)) : c ≠ 'U')
  have hS : ('S' : Char) ≠ c := Ne.symm (digit_ne h (Or.inr (by decide)) : c ≠ 'S')
  have hH : c ≠ '#' := digit_ne h (Or.inl (by decide))
  have e1 : isPreB (("APT").data) (c :: xs) = false := by
    have hd : ("APT").data = 'A' :: ('P' :: ('T' :: [])) := rfl
    rw [hd]
    simp [isPreB, hA]
  have e2 : isPreB (("UNIT").data) (c :: xs) = false := by
    have hd : ("UNIT").data = 'U' :: ('N' :: ('I' :: ('T' :: []))) := rfl
    rw [hd]
    simp [isPreB, hU]
  have e3 : isPreB (("STE").data) (c :: xs) = false := by
    have hd : ("STE").data = 'S' :: ('T' :: ('E' :: [])) := rfl
    rw [hd]
    simp [isPreB, hS]
  have e4 : isPreB (("SUITE").data) (c :: xs) = false := by
    have hd : ("SUITE").data = 'S' :: ('U' :: ('I' :: ('T' :: ('E' :: [])))) := rfl
    rw [hd]
    simp [isPreB, hS]
  unfold unitMarkerAt
  rw [e1, e2, e3, e4]
  simp only [Bool.and_false, Bool.false_and, Bool.false_or, Bool.or_false]
  split
  · rename_i heq
    exact absurd (List.cons_eq_cons.mp heq).1 hH
  · rfl

theorem cutUnitMk_digit_pre : ∀ (d : Str) (prev : Option Char) (t : Str),
    (∀ c ∈ d, c.isDigit = true) → ∃ r, cutUnitMk prev (d ++ t) = d ++ r := by
  intro d
  induction d with
  | nil => intro prev t _; exact ⟨cutUnitMk prev t, rfl⟩
  | cons c d' ih =>
    intro prev t hd
    have hstep : cutUnitMk prev (c :: (d' ++ t)) = c :: cutUnitMk (some c) (d' ++ t) := by
      simp only [cutUnitMk]
      rw [if_neg (by rw [unitMarkerAt_digit (d' ++ t) (hd c (List.mem_cons_self c d'))]; simp)]
    obtain ⟨r, hr⟩ := ih (some c) t (fun x hx => hd x (List.mem_cons_of_mem c hx))
    exact ⟨r, by rw [List.cons_append, hstep, hr, List.cons_append]⟩

/-! ## C8 — the cuts return a prefix of their input -/

theorem cutFL_pre : ∀ (prev : Option Char) (s : Str), ∃ t, s = cutFL prev s ++ t := by
  intro prev s
  induction s generalizing prev with
  | nil => exact ⟨[], rfl⟩
  | cons c rest ih =>
    by_cases hm : flMatchHere prev (c :: rest) = true
    · refine ⟨c :: rest, ?_⟩
      have hz : cutFL prev (c :: rest) = [] := by
        simp only [cutFL]
        rw [if_pos hm]
      rw [hz]
      rfl
    · obtain ⟨t, ht⟩ := ih (some c)
      refine ⟨t, ?_⟩
      have hstep : cutFL prev (c :: rest) = c :: cutFL (some c) rest := by
        simp only [cutFL]
        rw [if_neg hm]
      rw [hstep, List.cons_append, ← ht]

theorem cutUnitMk_pre : ∀ (prev : Option Char) (s : Str), ∃ t, s = cutUnitMk prev s ++ t := by
  intro prev s
  induction s generalizing prev with
  | nil => exact ⟨[], rfl⟩
  | cons c rest ih =>
    by_cases hm : unitMarkerAt prev (c :: rest) = true
    · refine ⟨c :: rest, ?_⟩
      have hz : cutUnitMk prev (c :: rest) = [] := by
        simp only [cutUnitMk]
        rw [if_pos hm]
      rw [hz]
      rfl
    · obtain ⟨t, ht⟩ := ih (some c)
      refine ⟨t, ?_⟩
      have hstep : cutUnitMk prev (c :: rest) = c :: cutUnitMk (some c) rest := by
        simp only [cutUnitMk]
        rw [if_neg hm]
      rw [hstep, List.cons_append, ← ht]

theorem mem_cutFL {prev : Option Char} {s : Str} {c : Char} (h : c ∈ cutFL prev s) :
    c ∈ s := by
  obtain ⟨t, ht⟩ := cutFL_pre prev s
  rw [ht]
  exact List.mem_append_left t h

theorem mem_cutUnitMk {prev : Option Char} {s : Str} {c : Char} (h : c ∈ cutUnitMk prev s) :
    c ∈ s := by
  obtain ⟨t, ht⟩ := cutUnitMk_pre prev s
  rw [ht]
  exact List.mem_append_left t h

/-! ## C8 — membership in the normalized output -/

theorem mem_normalize {raw : Str} {c : Char} (h : c ∈ normalize_address raw) :
    ∃ c0, c0 ∈ clean_spaces raw ∧ upChar c0 = c := by
  have h1 : c ∈ pyStrip (cutUnitMk none (pyStrip (cutFL none ((clean_spaces raw).map upChar)))) := h
  have h2 := mem_cutUnitMk (mem_of_mem_pyStrip h1)
  have h3 := mem_cutFL (mem_of_mem_pyStrip h2)
  exact List.mem_map.mp h3

theorem normalize_not_lower (raw : Str) :
    ∀ c ∈ normalize_address raw, isLowerAscii c = false := by
  intro c hc
  obtain ⟨c0, _, heq⟩ := mem_normalize hc
  rw [← heq]
  exact upChar_not_lower c0

theorem normalize_no_comma (raw : Str) : ',' ∉ normalize_address raw := by
  intro hc
  obtain ⟨c0, hmem, heq⟩ := mem_normalize hc
  have hc0 : c0 = ',' := upChar_eq_low (by decide) heq
  have h1 : c0 ∈ collapseWs (raw.map (fun x => if x = ',' then ' ' else x)) :=
    mem_of_mem_pyStrip hmem
  rcases mem_collapseWs h1 with h2 | h2
  · rcases List.mem_map.mp h2 with ⟨c1, _, hmapeq⟩
    rw [hc0] at hmapeq
    by_cases hcc : c1 = ','
    · rw [if_pos hcc] at hmapeq
      exact absurd hmapeq (by decide)
    · rw [if_neg hcc] at hmapeq
      exact hcc hmapeq
  · rw [hc0] at h2
    exact absurd h2 (by decide)

/-! ## C8 — no two consecutive spaces -/

theorem hasSubB_mono_left {p m : Str} (t : Str) (h : hasSubB p m = true) :
    hasSubB p (m ++ t) = true := by
  obtain ⟨a, b, hab⟩ := hasSubB_iff_append.mp h
  exact hasSubB_iff_append.mpr ⟨a, b ++ t, by rw [hab, List.append_assoc]⟩

theorem hasSubB_mono_right {p m : Str} (a : Str) (h : hasSubB p m = true) :
    hasSubB p (a ++ m) = true := by
  obtain ⟨x, y, hxy⟩ := hasSubB_iff_append.mp h
  refine hasSubB_iff_append.mpr ⟨a ++ x, y, ?_⟩
  rw [hxy, ← List.append_assoc, ← List.append_assoc]

theorem hasSub_of_pyStrip {p l : Str} (h : hasSubB p (pyStrip l) = true) :
    hasSubB p l = true := by
  have h0 : hasSubB p (pyRStrip (pyLStrip l)) = true := h
  have h1 : hasSubB p (pyLStrip l) = true := by
    have hx := hasSubB_mono_left ((pyLStrip l).reverse.takeWhile isWsChar).reverse h0
    rwa [pyRStrip_append_eq (pyLStrip l)] at hx
  have h1a : hasSubB p (l.dropWhile isWsChar) = true := h1
  have h2 := hasSubB_mono_right (l.takeWhile isWsChar) h1a
  rwa [List.takeWhile_append_dropWhile] at h2

theorem hasSub_of_cutFL {p : Str} {prev : Option Char} {s : Str}
    (h : hasSubB p (cutFL prev s) = true) : hasSubB p s = true := by
  obtain ⟨t, ht⟩ := cutFL_pre prev s
  rw [ht]
  exact hasSubB_mono_left t h

theorem hasSub_of_cutUnitMk {p : Str} {prev : Option Char} {s : Str}
    (h : hasSubB p (cutUnitMk prev s) = true) : hasSubB p s = true := by
  obtain ⟨t, ht⟩ := cutUnitMk_pre prev s
  rw [ht]
  exact hasSubB_mono_left t h

theorem hasSub_pair_map_up {l : Str}
    (h : hasSubB ((' ') :: (' ') :: []) (l.map upChar) = true) :
    hasSubB ((' ') :: (' ') :: []) l = true := by
  obtain ⟨a, b, hab⟩ := hasSubB_iff_append.mp h
  obtain ⟨l1, l23, hl, hm1, hm23⟩ := List.append_eq_map_iff.mp hab.symm
  obtain ⟨la, l2, hl1, hma, hm2⟩ := List.append_eq_map_iff.mp hm1.symm
  rcases l2 with _ | ⟨x, l2a⟩
  · have hlen := congrArg List.length hm2
    simp at hlen
  · rcases l2a with _ | ⟨y, l2b⟩
    · have hlen := congrArg List.length hm2
      simp at hlen
    · rcases l2b with _ | ⟨z, l2c⟩
      · simp only [List.map_cons, List.map_nil] at hm2
        injection hm2 with hx htl
        injection htl with hy _
        have hx' : x = ' ' := upChar_eq_low (by decide) hx
        have hy' : y = ' ' := upChar_eq_low (by decide) hy
        refine hasSubB_iff_append.mpr ⟨la, l23, ?_⟩
        rw [hl, hl1, hx', hy']
      · have hlen := congrArg List.length hm2
        simp at hlen

theorem collapse_head_of_not_ws {c2 : Char} (rest : Str) (h : isWsChar c2 = false) :
    ∃ tl, collapseWs (c2 :: rest) = c2 :: tl := by
  cases rest with
  | nil => exact ⟨[], by simp [collapseWs, h]⟩
  | cons r0 r' =>
    refine ⟨collapseWs (r0 :: r'), ?_⟩
    simp only [collapseWs]
    rw [if_neg (by simp [h]), if_neg (by simp [h])]

theorem no_two_spaces_collapse : ∀ (l : Str),
    hasSubB ((' ') :: (' ') :: []) (collapseWs l) = false := by
  intro l
  induction l using collapseWs.induct with
  | case1 => decide
  | case2 c hws =>
    simp only [collapseWs, if_pos hws]
    decide
  | case3 c hnws =>
    simp only [collapseWs, if_neg hnws]
    simp [hasSubB, isPreB]
  | case4 c1 c2 rest hg ih =>
    simp only [collapseWs, if_pos hg]
    exact ih
  | case5 c1 c2 rest hng ih =>
    have hstep : collapseWs (c1 :: c2 :: rest)
        = (if isWsChar c1 then ' ' else c1) :: collapseWs (c2 :: rest) := by
      simp only [collapseWs]
      rw [if_neg hng]
    rw [hstep]
    have hpre : isPreB ((' ') :: (' ') :: [])
        ((if isWsChar c1 then ' ' else c1) :: collapseWs (c2 :: rest)) = false := by
      by_cases hw1 : isWsChar c1
      · rw [if_pos hw1]
        have hw2 : isWsChar c2 = false := by
          cases h2 : isWsChar c2
          · rfl
          · exact absurd (by rw [hw1, h2]; rfl) hng
        obtain ⟨tl, htl⟩ := collapse_head_of_not_ws rest hw2
        rw [htl]
        have hne : (' ' : Char) ≠ c2 := by
          intro he
          rw [← he] at hw2
          exact absurd hw2 (by decide)
        simp [isPreB, hne]
      · rw [if_neg hw1]
        have hne : (' ' : Char) ≠ c1 := by
          intro he
          rw [← he] at hw1
          exact hw1 (by decide)
        simp [isPreB, hne]
    simp only [hasSubB, hpre, Bool.false_or]
    exact ih

theorem normalize_no_two_spaces (raw : Str) :
    hasSubB ((' ') :: (' ') :: []) (normalize_address raw) = false := by
  cases hs : hasSubB ((' ') :: (' ') :: []) (normalize_address raw)
  · rfl
  · exfalso
    have h1 : hasSubB ((' ') :: (' ') :: [])
        (pyStrip (cutUnitMk none (pyStrip (cutFL none ((clean_spaces raw).map upChar))))) = true := hs
    have h2 := hasSub_of_cutFL (hasSub_of_pyStrip (hasSub_of_cutUnitMk (hasSub_of_pyStrip h1)))
    have h3 := hasSub_pair_map_up h2
    have h4 : hasSubB ((' ') :: (' ') :: [])
        (pyStrip (collapseWs (raw.map (fun c => if c = ',' then ' ' else c)))) = true := h3
    have h5 := hasSub_of_pyStrip h4
    rw [no_two_spaces_collapse] at h5
    exact absurd h5 (by decide)

/-! ## C8 — the house number survives the whole pipeline -/

theorem normalize_keeps_house (house rest : Str) (hne : house ≠ [])
    (hdig : ∀ c ∈ house, c.isDigit = true) :
    ∃ r, normalize_address (house ++ (' ') :: rest) = house ++ r := by
  have hnw : ∀ c ∈ house, isWsChar c = false := fun c hc => digit_not_ws (hdig c hc)
  have hcm : ∀ c ∈ house, (if c = ',' then ' ' else c) = c := fun c hc =>
    if_neg (digit_ne (hdig c hc) (Or.inl (by decide)))
  have h1 : (house ++ (' ') :: rest).map (fun c => if c = ',' then ' ' else c)
      = house ++ (' ') :: rest.map (fun c => if c = ',' then ' ' else c) := by
    simp only [List.map_append, List.map_cons, map_eq_self_of hcm]
    rw [if_neg (show ¬((' ' : Char) = ',') by decide)]
  have h2 := collapseWs_append_nonws house
    ((' ') :: rest.map (fun c => if c = ',' then ' ' else c)) hnw
  obtain ⟨r1, h3⟩ := pyStrip_keeps house
    (collapseWs ((' ') :: rest.map (fun c => if c = ',' then ' ' else c))) hne hnw
  have hclean : clean_spaces (house ++ (' ') :: rest) = house ++ r1 := by
    unfold clean_spaces
    rw [h1, h2, h3]
  have h4 : (house ++ r1).map upChar = house ++ r1.map upChar := by
    rw [List.map_append, map_eq_self_of (fun c hc => upChar_digit (hdig c hc))]
  obtain ⟨r2, h5⟩ := cutFL_digit_pre house none (r1.map upChar) hdig
  obtain ⟨r3, h6⟩ := pyStrip_keeps house r2 hne hnw
  obtain ⟨r4, h7⟩ := cutUnitMk_digit_pre house none r3 hdig
  obtain ⟨r5, h8⟩ := pyStrip_keeps house r4 hne hnw
  refine ⟨r5, ?_⟩
  show pyStrip (cutUnitMk none (pyStrip (cutFL none
    ((clean_spaces (house ++ (' ') :: rest)).map upChar)))) = house ++ r5
  rw [hclean, h4, h5, h6, h7, h8]

/-- C8: the address normalizer (a total function, so it never raises)
maps the empty string to the empty string and any garbage input made of
commas and whitespace to the empty string; and for every raw address
starting with a non-empty numeric house number followed by a space, with
a recognizable street suffix appearing (case-insensitively) in the rest,
the output starts with the house number unchanged, contains no
lower-case ASCII letter, contains no comma, and contains no two
consecutive spaces. -/
theorem c8_normalize_address :
    (normalize_address [] = []) ∧
    (∀ raw : Str, (∀ c ∈ raw, c = ',' ∨ isWsChar c = true) → normalize_address raw = []) ∧
    (∀ house rest : Str, house ≠ [] → (∀ c ∈ house, c.isDigit = true) →
      (∃ suf ∈ streetSuffixes, hasSubB suf ((house ++ (' ') :: rest).map upChar) = true) →
      isPreB house (normalize_address (house ++ (' ') :: rest)) = true ∧
      (∀ c ∈ normalize_address (house ++ (' ') :: rest), isLowerAscii c = false) ∧
      (',' ∉ normalize_address (house ++ (' ') :: rest)) ∧
      hasSubB ((' ') :: (' ') :: []) (normalize_address (house ++ (' ') :: rest)) = false) := by
  refine ⟨rfl, normalize_address_junk, ?_⟩
  intro house rest hne hdig _
  obtain ⟨r, hr⟩ := normalize_keeps_house house rest hne hdig
  refine ⟨?_, normalize_not_lower _, normalize_no_comma _, normalize_no_two_spaces _⟩
  rw [hr]
  exact isPreB_append_self house r

/-- Witness for C8 at the concrete address "12 Main St". -/
theorem c8_normalize_address_witness :
    isPreB (("12").data) (normalize_address (("12").data ++ (' ') :: ("Main St").data)) = true ∧
    hasSubB ((' ') :: (' ') :: [])
      (normalize_address (("12").data ++ (' ') :: ("Main St").data)) = false :=
  ⟨(c8_normalize_address.2.2 (("12").data) (("Main St").data) (by decide) (by decide)
      ⟨("ST").data, by decide, by decide⟩).1,
   (c8_normalize_address.2.2 (("12").data) (("Main St").data) (by decide) (by decide)
      ⟨("ST").data, by decide, by decide⟩).2.2.2⟩

end RoofSpy
